import Mathlib

/-!
Verification of the emulation core against its specification.

Each component the claims touch is shallowly embedded: machine integers
become `Nat` with explicit wrap-arounds (`% 2^w`) where the source relies
on them, signed arithmetic becomes `Int` with explicit reinterpretation
functions, raw host pointers become indices into explicit buffers, and
code paths that panic in the source (`unreachable!`, `todo!`, arithmetic
overflow, out-of-bounds indexing) become `Option` with `none` marking the
panic.
-/

namespace Emu

def u16M : Nat := 2 ^ 16
def u32M : Nat := 2 ^ 32
def u64M : Nat := 2 ^ 64

/-- Low 32 bits of a word reinterpreted as a signed 32-bit value and
sign-extended (Rust `as u32 as i32 as i64`). -/
def sext32 (x : Nat) : Int :=
  let lo := x % u32M
  if lo < 2 ^ 31 then (lo : Int) else (lo : Int) - (u32M : Int)

/-- A 64-bit word reinterpreted as a signed value (Rust `as i64`). -/
def toI64 (x : Nat) : Int :=
  let lo := x % u64M
  if lo < 2 ^ 63 then (lo : Int) else (lo : Int) - (u64M : Int)

/-- A signed value reinterpreted as a 64-bit word (Rust `as u64`). -/
def toU64 (i : Int) : Nat := (i % (u64M : Int)).toNat

/-- Rust `i64::signum`. -/
def signum64 (i : Int) : Int := if 0 < i then 1 else if i < 0 then -1 else 0

/-! ## Math unit (src/core/hardware/math_unit.rs) -/

structure MathUnit where
  divcnt : Nat
  div_numer : Nat
  div_denom : Nat
  divrem_result : Nat
  div_result : Nat
  deriving Repr, DecidableEq

/-- The closure `special_invert` in `MathUnit::start_division`. -/
def specialInvert (num : Nat) : Nat := num ^^^ 0xFFFFFFFF00000000

/-- `MathUnit::start_division`.  `none` models the `unreachable!()` arm for
DIVCNT mode 3.  The bit-14 update, operand-width selection and the three
result branches follow the source line by line. -/
def MathUnit.start_division (s : MathUnit) : Option MathUnit :=
  let cnt := if s.div_denom = 0 then s.divcnt ||| (1 <<< 14) else s.divcnt &&& 0xBFFF
  let mode := cnt &&& 3
  if mode = 3 then none
  else
    let numer := if mode = 0 then sext32 s.div_numer else toI64 s.div_numer
    let denom := if mode = 2 then toI64 s.div_denom else sext32 s.div_denom
    if numer = -(2 ^ 63) ∧ denom = -1 then
      let res := toU64 numer
      some { s with
        divcnt := cnt
        div_result := if mode = 0 then specialInvert res else res
        divrem_result := 0 }
    else if denom = 0 then
      let res := if numer = 0 then toU64 (-1) else toU64 (-(signum64 numer))
      some { s with
        divcnt := cnt
        div_result := if mode = 0 then specialInvert res else res
        divrem_result := toU64 numer }
    else
      some { s with
        divcnt := cnt
        div_result := toU64 (numer.tdiv denom)
        divrem_result := toU64 (numer.tmod denom) }

lemma land_bfff_land_three (x : Nat) : (x &&& 0xBFFF) &&& 3 = x &&& 3 := by
  rw [Nat.land_assoc]
  congr 1

lemma sext32_ne_zero_of {x : Nat} (h : sext32 x ≠ 0) : x ≠ 0 := by
  intro hx
  apply h
  simp [sext32, hx, u32M]

lemma toI64_ne_zero_of {x : Nat} (h : toI64 x ≠ 0) : x ≠ 0 := by
  intro hx
  apply h
  simp [toI64, hx, u64M]

/-- C3: with the operands selected by the DIVCNT mode, a nonzero denominator
and outside the (MIN, -1) case, the recomputed results are the truncated signed
quotient and the dividend-signed remainder, reinterpreted as 64-bit words. -/
theorem c3_divide_truncated (s : MathUnit) (numer denom : Int)
    (hmode : s.divcnt &&& 3 ≠ 3)
    (hn : numer = if s.divcnt &&& 3 = 0 then sext32 s.div_numer else toI64 s.div_numer)
    (hd : denom = if s.divcnt &&& 3 = 2 then toI64 s.div_denom else sext32 s.div_denom)
    (hd0 : denom ≠ 0)
    (hmin : ¬(numer = -(2 ^ 63) ∧ denom = -1)) :
    ∃ t, s.start_division = some t ∧
      t.div_result = toU64 (numer.tdiv denom) ∧
      t.divrem_result = toU64 (numer.tmod denom) := by
  have hdge : s.div_denom ≠ 0 := by
    by_cases h2 : s.divcnt &&& 3 = 2
    · exact toI64_ne_zero_of (by rw [hd, if_pos h2] at hd0; exact hd0)
    · exact sext32_ne_zero_of (by rw [hd, if_neg h2] at hd0; exact hd0)
  unfold MathUnit.start_division
  simp only [if_neg hdge, land_bfff_land_three]
  rw [if_neg hmode, ← hn, ← hd, if_neg hmin, if_neg hd0]
  exact ⟨_, rfl, rfl, rfl⟩

/-- Witness for C3 at DIVCNT mode 0, DIV_NUMER `-7` (as a 32-bit word),
DIV_DENOM 2: quotient `-3`, remainder `-1`, both sign-extended to 64 bits. -/
theorem c3_divide_truncated_witness :
    ∃ t, MathUnit.start_division
        { divcnt := 0, div_numer := 0xFFFFFFF9, div_denom := 2,
          divrem_result := 0, div_result := 0 } = some t ∧
      t.div_result = 0xFFFFFFFFFFFFFFFD ∧ t.divrem_result = 0xFFFFFFFFFFFFFFFF := by
  obtain ⟨t, h1, h2, h3⟩ :=
    c3_divide_truncated
      { divcnt := 0, div_numer := 0xFFFFFFF9, div_denom := 2,
        divrem_result := 0, div_result := 0 }
      (-7) 2 (by decide) (by decide) (by decide) (by decide) (by decide)
  refine ⟨t, h1, ?_, ?_⟩
  · rw [h2]; decide
  · rw [h3]; decide

/-- The register state of the divide-by-zero scenario in the claim:
DIVCNT mode 1, DIV_NUMER 5, DIV_DENOM 0. -/
def divScenario : MathUnit :=
  { divcnt := 1, div_numer := 5, div_denom := 0, divrem_result := 0, div_result := 0 }

/-- C4 counterexample: in the claimed scenario the code computes
`-signum(5) = -1` as the quotient, i.e. `0xFFFFFFFFFFFFFFFF`, not the
`0xFFFFFFFFFFFFFFFB` the claim states. -/
theorem c4_divzero_quotient_counterexample :
    (divScenario.start_division.map fun t => t.div_result) = some 0xFFFFFFFFFFFFFFFF ∧
      (0xFFFFFFFFFFFFFFFF : Nat) ≠ 0xFFFFFFFFFFFFFFFB := by
  constructor
  · rfl
  · decide

/-- C4 amended: with DIVCNT mode 1, DIV_NUMER 5, DIV_DENOM 0 the math unit
produces quotient 0xFFFFFFFFFFFFFFFF, remainder 5, and sets DIVCNT bit 14. -/
theorem c4_divzero_result :
    (divScenario.start_division.map fun t =>
      (t.div_result, t.divrem_result, t.divcnt.testBit 14)) =
      some (0xFFFFFFFFFFFFFFFF, 5, true) := by
  rfl

/-! ## Page table (src/util/page_table.rs)

The repository instantiates `PageTable::<14>` (16 KiB pages), so the
derived constants are specialized: PAGE_SIZE `0x4000`, PAGE_MASK `0x3FFF`,
L1_BITS = L2_BITS = 9, L1_SHIFT 23, L2_SHIFT 14, L2_MASK 511.  Host
pointers are modelled as `Nat`, with 0 playing the role of the null
pointer exactly as in the source. -/

structure Table where
  inner : Nat → Nat → Nat

def l1Index (addr : Nat) : Nat := addr >>> 23

def l2Index (addr : Nat) : Nat := (addr >>> 14) &&& 511

def Table.init : Table := ⟨fun _ _ => 0⟩

/-- `Table::get_pointer` (the entry read is written twice here only to
avoid a `let`). -/
def Table.get_pointer (t : Table) (addr : Nat) : Nat :=
  if t.inner (l1Index addr) (l2Index addr) = 0 then 0
  else t.inner (l1Index addr) (l2Index addr) + (addr &&& 0x3FFF)

def Table.setEntry (t : Table) (i j v : Nat) : Table :=
  ⟨fun a b => if a = i ∧ b = j then v else t.inner a b⟩

/-- The loop shared by `Table::map` and `Table::unmap`: `n` iterations of
`for addr in (base..end).step_by(PAGE_SIZE)`, each storing `g addr` into
the L1/L2 entry of `addr`.  `map` stores `ptr.add(addr & mask)`, `unmap`
stores null. -/
def Table.storeLoop (t : Table) (g : Nat → Nat) : Nat → Nat → Table
  | 0, _ => t
  | n + 1, addr =>
      (t.setEntry (l1Index addr) (l2Index addr) (g addr)).storeLoop g n (addr + 0x4000)

/-- Number of iterations of `(base..end).step_by(0x4000)`. -/
def numPages (base e : Nat) : Nat := (e - base + 0x3FFF) / 0x4000

def Table.map (t : Table) (base e ptr mask : Nat) : Table :=
  t.storeLoop (fun addr => ptr + (addr &&& mask)) (numPages base e) base

def Table.unmap (t : Table) (base e : Nat) : Table :=
  t.storeLoop (fun _ => 0) (numPages base e) base

lemma l1Index_eq (a : Nat) : l1Index a = a / 16384 / 512 := by
  unfold l1Index
  rw [Nat.shiftRight_eq_div_pow, Nat.div_div_eq_div_mul]

lemma l2Index_eq (a : Nat) : l2Index a = a / 16384 % 512 := by
  unfold l2Index
  rw [Nat.shiftRight_eq_div_pow]
  have h := Nat.and_pow_two_sub_one_eq_mod (a / 2 ^ 14) 9
  norm_num at h ⊢
  exact h

lemma land_page_mask (a : Nat) : a &&& 0x3FFF = a % 0x4000 := by
  have h := Nat.and_pow_two_sub_one_eq_mod a 14
  norm_num at h
  exact h

lemma slot_eq_of_page_eq {a b : Nat} (h : a / 16384 = b / 16384) :
    l1Index a = l1Index b ∧ l2Index a = l2Index b := by
  rw [l1Index_eq, l1Index_eq, l2Index_eq, l2Index_eq, h]
  exact ⟨rfl, rfl⟩

lemma page_eq_of_slot_eq {a b : Nat} (h1 : l1Index a = l1Index b)
    (h2 : l2Index a = l2Index b) : a / 16384 = b / 16384 := by
  rw [l1Index_eq, l1Index_eq] at h1
  rw [l2Index_eq, l2Index_eq] at h2
  omega

/-- Pages strictly below a page-aligned loop base are never written. -/
lemma storeLoop_inner_of_lt (g : Nat → Nat) (A : Nat) (n : Nat) :
    ∀ (t : Table) (base : Nat), base % 0x4000 = 0 → A < base →
      (t.storeLoop g n base).inner (l1Index A) (l2Index A) =
        t.inner (l1Index A) (l2Index A) := by
  induction n with
  | zero => intro t base _ _; rfl
  | succ n ih =>
      intro t base hb hA
      simp only [Table.storeLoop]
      rw [ih _ (base + 0x4000) (by omega) (by omega)]
      simp only [Table.setEntry]
      rw [if_neg]
      intro hc
      have := page_eq_of_slot_eq hc.1 hc.2
      omega

/-- Any address inside the covered page range ends up holding the value
stored for its page base. -/
lemma storeLoop_inner_covered (g : Nat → Nat) (A : Nat) (n : Nat) :
    ∀ (t : Table) (base : Nat), base % 0x4000 = 0 → base ≤ A →
      A < base + n * 0x4000 →
      (t.storeLoop g n base).inner (l1Index A) (l2Index A) =
        g (A - A % 0x4000) := by
  induction n with
  | zero => intro t base _ h1 h2; omega
  | succ n ih =>
      intro t base hb h1 h2
      simp only [Table.storeLoop]
      by_cases hc : A < base + 0x4000
      · rw [storeLoop_inner_of_lt g A n _ (base + 0x4000) (by omega) hc]
        simp only [Table.setEntry]
        have hpage : A / 16384 = base / 16384 := by omega
        obtain ⟨e1, e2⟩ := slot_eq_of_page_eq hpage
        rw [if_pos ⟨e1, e2⟩]
        have : A - A % 0x4000 = base := by omega
        rw [this]
      · exact ih _ (base + 0x4000) (by omega) (by omega) (by omega)

/-- C2 counterexample: `map(0, 0x4000, 0x1000, 0x3FFF)` then `lookup(1)`
yields `0x1001` (the stored entry is `p + (page_base & mask)`), while the
claimed formula `p + (A & m) + (A & page_mask)` gives `0x1002`. -/
theorem c2_lookup_formula_counterexample :
    (Table.init.map 0 0x4000 0x1000 0x3FFF).get_pointer 1 = 0x1001 ∧
      0x1000 + ((1 : Nat) &&& 0x3FFF) + ((1 : Nat) &&& 0x3FFF) = 0x1002 ∧
      (0x1001 : Nat) ≠ 0x1002 := by
  refine ⟨rfl, by decide, by decide⟩

/-- C2 amended: for a page-aligned base, after `map(B, E, p, m)` a lookup
of A in [B, E) returns `p + ((A & !page_mask) & m) + (A & page_mask)`
(the offset mask is applied to the page base address, not to A itself);
after `unmap(B, E)` the lookup returns null. -/
theorem c2_map_unmap_lookup (t : Table) (B E p m A : Nat)
    (hB : B % 0x4000 = 0) (h1 : B ≤ A) (h2 : A < E) (hE : E ≤ 2 ^ 32)
    (hp : 0 < p) :
    (t.map B E p m).get_pointer A = p + ((A - A % 0x4000) &&& m) + A % 0x4000 ∧
      (t.unmap B E).get_pointer A = 0 := by
  have hstep := Nat.div_add_mod (E - B + 0x3FFF) 0x4000
  have hrem : (E - B + 0x3FFF) % 0x4000 < 0x4000 := Nat.mod_lt _ (by norm_num)
  have hcov : A < B + numPages B E * 0x4000 := by
    unfold numPages
    omega
  constructor
  · unfold Table.map Table.get_pointer
    rw [storeLoop_inner_covered _ A _ t B hB h1 hcov]
    rw [if_neg (by omega)]
    rw [land_page_mask]
  · unfold Table.unmap Table.get_pointer
    rw [storeLoop_inner_covered _ A _ t B hB h1 hcov]
    simp

/-- Witness for C2 at `map(0, 0x8000, 0x1000, 0x3FFFFF)` and `A = 0x4001`:
the lookup returns `0x1000 + 0x4000 + 1`. -/
theorem c2_map_unmap_lookup_witness :
    (Table.init.map 0 0x8000 0x1000 0x3FFFFF).get_pointer 0x4001 = 0x5001 ∧
      (Table.init.unmap 0 0x8000).get_pointer 0x4001 = 0 := by
  obtain ⟨ha, hb⟩ :=
    c2_map_unmap_lookup Table.init 0 0x8000 0x1000 0x3FFFFF 0x4001
      (by decide) (by decide) (by decide) (by decide) (by decide)
  exact ⟨by rw [ha]; decide, hb⟩

/-! ## Scheduler (src/core/scheduler.rs)

Events are `(time, id)` pairs kept in the order of the backing `Vec`.
`calc_event_index` is translated with Rust release semantics: the `usize`
variables wrap modulo `2^64` and an out-of-range `self.events[mid]` is the
panic marker `none` (under debug overflow checks the wrapped subtraction
itself aborts, so both build modes panic at the same inputs). -/

def usizeM : Nat := 2 ^ 64

structure Scheduler where
  events : List (Nat × Nat)
  current_time : Nat
  deriving Repr, DecidableEq

/-- The `while lower <= upper` loop of `Scheduler::calc_event_index`,
with enough fuel for any 64-bit binary search. -/
def calcLoop (es : List (Nat × Nat)) (time : Nat) : Nat → Nat → Nat → Option Nat
  | 0, _, _ => none
  | fuel + 1, lower, upper =>
      if lower ≤ upper then
        let mid := (lower + upper) % usizeM / 2
        match es.get? mid with
        | none => none
        | some e =>
            if time > e.1 then calcLoop es time fuel ((mid + 1) % usizeM) upper
            else calcLoop es time fuel lower ((mid + usizeM - 1) % usizeM)
      else some lower

def Scheduler.calc_event_index (s : Scheduler) (time : Nat) : Option Nat :=
  if s.events.isEmpty then some 0
  else calcLoop s.events time 128 0 (s.events.length - 1)

def Scheduler.add_event (s : Scheduler) (delay : Nat) (id : Nat) : Option Scheduler :=
  let time := (s.current_time + delay) % usizeM
  match s.calc_event_index time with
  | none => none
  | some i => some { s with events := s.events.insertNth i (time, id) }

def Scheduler.cancel_event (s : Scheduler) (id : Nat) : Scheduler :=
  { s with events := s.events.filter fun e => e.2 ≠ id }

def Scheduler.tick (s : Scheduler) (cycles : Nat) : Scheduler :=
  { s with current_time := (s.current_time + cycles) % usizeM }

/-- `Scheduler::run`: the due events in firing order, and the retained
queue. -/
def Scheduler.run (s : Scheduler) : List (Nat × Nat) × Scheduler :=
  (s.events.filter fun e => e.1 ≤ s.current_time,
    { s with events := s.events.filter fun e => ¬ e.1 ≤ s.current_time })

/-- C1 (code bug): `add_event` panics whenever the new event's time is at
or before the head of a nonempty queue.  The binary search reaches
`mid = 0` in the `else` branch, `upper = mid - 1` wraps the `usize`, and
`self.events[mid]` then indexes far out of bounds.  Concretely, adding an
event at delay 10 and then another at delay 5 hits the panic marker. -/
theorem c1_add_event_before_head_panics :
    Scheduler.add_event ⟨[], 0⟩ 10 1 = some ⟨[(10, 1)], 0⟩ ∧
      ((Scheduler.add_event ⟨[], 0⟩ 10 1).bind fun s => s.add_event 5 2) = none := by
  constructor <;> rfl

/-! ## DMA (src/core/hardware/dma.rs)

A single channel is modelled together with a flat memory map standing in
for the per-CPU memory router (whose internals the claim does not
depend on).  `none` marks the `todo!()` panics in `Dma::transfer` and
`Dma::write_control`. -/

inductive Arch
  | ARMv4
  | ARMv5
  deriving Repr, DecidableEq

structure Mem where
  words : Nat → Nat
  halves : Nat → Nat

structure Channel where
  length : Nat
  source : Nat
  internal_source : Nat
  destination : Nat
  internal_destination : Nat
  internal_length : Nat
  control : Nat
  deriving Repr, DecidableEq

/-- Bit-range read generated by the `bitfield!` macro:
`(raw >> start)` truncated to `size` bits. -/
def getField (raw start size : Nat) : Nat := (raw >>> start) &&& (2 ^ size - 1)

def Control.source_control (c : Nat) : Nat := getField c 7 2

def Control.destination_control (c : Nat) : Nat := getField c 5 2

def Control.repeats (c : Nat) : Bool := c.testBit 9

def Control.transfer_words (c : Nat) : Bool := c.testBit 10

def Control.timing (c : Nat) : Nat := getField c 11 3

def Control.irq (c : Nat) : Bool := c.testBit 14

def Control.enable (c : Nat) : Bool := c.testBit 15

/-- `ADJUST_LUT`, with the `i32` entries already reinterpreted as `u32`
(the source adds them to `u32` addresses with wrapping semantics). -/
def adjustLut (words : Bool) (ctrl : Nat) : Nat :=
  if words then
    if ctrl = 0 then 4 else if ctrl = 1 then 0xFFFFFFFC else if ctrl = 2 then 0 else 4
  else
    if ctrl = 0 then 2 else if ctrl = 1 then 0xFFFFFFFE else if ctrl = 2 then 0 else 2

/-- The word/half copy loop of `Dma::transfer`: state is
`(internal_source, internal_destination, memory)`. -/
def copyLoop (words : Bool) (sadj dadj : Nat) : Nat → Nat × Nat × Mem → Nat × Nat × Mem
  | 0, st => st
  | n + 1, (src, dst, m) =>
      let m1 :=
        if words then
          { m with words := fun a => if a = dst then m.words src else m.words a }
        else
          { m with halves := fun a => if a = dst then m.halves src else m.halves a }
      copyLoop words sadj dadj n ((src + sadj) % u32M, (dst + dadj) % u32M, m1)

/-- `Dma::transfer` for one channel.  `none` models the two `todo!()`
arms: the IRQ raise and the repeat re-arm. -/
def Channel.transfer (ch : Channel) (m : Mem) : Option (Channel × Mem) :=
  let sadj := adjustLut (Control.transfer_words ch.control) (Control.source_control ch.control)
  let dadj := adjustLut (Control.transfer_words ch.control) (Control.destination_control ch.control)
  let st := copyLoop (Control.transfer_words ch.control) sadj dadj ch.internal_length
    (ch.internal_source, ch.internal_destination, m)
  let ch1 := { ch with internal_source := st.1, internal_destination := st.2.1 }
  if Control.irq ch1.control then none
  else if Control.repeats ch1.control ∧ Control.timing ch1.control ≠ 0 then none
  else some ({ ch1 with control := ch1.control &&& 0x7FFF }, st.2.2)

/-- `util::set` on a 16-bit register. -/
def set16 (this val mask : Nat) : Nat :=
  (this &&& (0xFFFF ^^^ (mask % u16M))) ||| (val &&& (mask % u16M) &&& 0xFFFF)

/-- `Dma::write_control` for one channel.  The returned flag records
whether an immediate-timing transfer event was enqueued at delay 1.
`none` models the GXFIFO `todo!()`. -/
def Channel.write_control (ch : Channel) (arch : Arch) (val mask : Nat) :
    Option (Channel × Bool) :=
  let old := ch.control
  let length := (ch.length &&& 0xffff) ||| ((val &&& 0x1f &&& mask) <<< 16)
  let control := set16 ch.control (val % u16M) mask
  if Control.enable control ∧ Control.timing control = 7 then none
  else if Control.enable old ∨ ¬ Control.enable control then
    some ({ ch with length := length, control := control }, false)
  else
    let internal_length :=
      if length = 0 then (if arch = Arch.ARMv5 then 0x200000 else 0x10000) else length
    some ({ ch with
      length := length
      control := control
      internal_source := ch.source
      internal_destination := ch.destination
      internal_length := internal_length },
      Control.timing control = 0)

/-- `Dma::read_control`. -/
def Channel.read_control (ch : Channel) : Nat :=
  ((ch.length >>> 16) &&& 0x1f) ||| ch.control

/-- The concrete channel of the C7 scenario before its control write:
length 1, a source and a destination in main memory. -/
def dmaChannel0 : Channel :=
  { length := 1, source := 0x100, internal_source := 0
    destination := 0x200, internal_destination := 0
    internal_length := 0, control := 0 }

def dmaMem0 : Mem :=
  { words := fun _ => 0, halves := fun a => if a = 0x100 then 0xABCD else 0 }

/-- The channel after its enable write: internal registers latched. -/
def dmaChannel1 : Channel :=
  { dmaChannel0 with
      control := 0x8000, internal_source := 0x100
      internal_destination := 0x200, internal_length := 1 }

/-- C7 (code bug): enabling a channel with `repeat = 0`, immediate timing
and `irq = 0` latches the internal registers, the transfer callback copies
the data and afterwards `control.enable` reads 0 — but with `irq = 1` the
completion path is `todo!()`: the code panics instead of raising the
channel's DMA IRQ. -/
theorem c7_transfer_completion :
    Channel.write_control dmaChannel0 Arch.ARMv5 0x8000 0xFFFFFFFF = some (dmaChannel1, true) ∧
      ((Channel.transfer dmaChannel1 dmaMem0).map fun p =>
        ((Channel.read_control p.1).testBit 15, p.2.halves 0x200)) = some (false, 0xABCD) ∧
      Channel.transfer { dmaChannel1 with control := 0xC000 } dmaMem0 = none := by
  refine ⟨rfl, rfl, rfl⟩

/-! ## CPU state and core (src/arm/state.rs, src/arm/cpu.rs)

Register files are total maps from `Nat` indices (only indices 0..15 and
banks 0..5 with slots 0..6 are ever touched, exactly as in the source
arrays).  The CPSR is the raw `u32`; mode decoding is the `transmute` in
`From<u32> for Mode`, made partial (`none` = undefined behaviour on an
invalid 5-bit pattern). -/

inductive Mode
  | User
  | Fiq
  | Irq
  | Supervisor
  | Abort
  | Undefined
  | System
  deriving Repr, DecidableEq

def Mode.toBits : Mode → Nat
  | Mode.User => 0x10
  | Mode.Fiq => 0x11
  | Mode.Irq => 0x12
  | Mode.Supervisor => 0x13
  | Mode.Abort => 0x17
  | Mode.Undefined => 0x1b
  | Mode.System => 0x1f

def modeOfBits (b : Nat) : Option Mode :=
  if b = 0x10 then some Mode.User
  else if b = 0x11 then some Mode.Fiq
  else if b = 0x12 then some Mode.Irq
  else if b = 0x13 then some Mode.Supervisor
  else if b = 0x17 then some Mode.Abort
  else if b = 0x1b then some Mode.Undefined
  else if b = 0x1f then some Mode.System
  else none

inductive Bank
  | USR
  | FIQ
  | IRQ
  | SVC
  | ABT
  | UND
  deriving Repr, DecidableEq

def Bank.idx : Bank → Nat
  | Bank.USR => 0
  | Bank.FIQ => 1
  | Bank.IRQ => 2
  | Bank.SVC => 3
  | Bank.ABT => 4
  | Bank.UND => 5

def Mode.bank : Mode → Bank
  | Mode.User => Bank.USR
  | Mode.System => Bank.USR
  | Mode.Fiq => Bank.FIQ
  | Mode.Irq => Bank.IRQ
  | Mode.Supervisor => Bank.SVC
  | Mode.Abort => Bank.ABT
  | Mode.Undefined => Bank.UND

structure CpuState where
  gpr : Nat → Nat
  gpr_banked : Nat → Nat → Nat
  cpsr : Nat
  spsr : Nat
  spsr_banked : Nat → Nat

/-- `StatusReg::mode` raw bits (bit range 0..=4 of the CPSR). -/
def cpsrModeBits (raw : Nat) : Nat := getField raw 0 5

/-- `StatusReg::set_mode` (bit-range store of the macro, mask `0x1f`). -/
def setModeBits (raw : Nat) (m : Mode) : Nat :=
  (raw &&& 0xFFFFFFE0) ||| (m.toBits &&& 0x1F)

/-- The body of `Cpu::switch_mode` once the current mode has been decoded
from the CPSR.  The two register-transfer loops become guarded function
updates over the same index ranges. -/
def switchModeAux (s : CpuState) (m0 mode : Mode) : CpuState :=
  let old := (Mode.bank m0).idx
  let new := (Mode.bank mode).idx
  let spsr1 : Nat := if Mode.bank mode = Bank.USR then 255 else new
  let cpsr1 := setModeBits s.cpsr mode
  if Mode.bank m0 = Bank.FIQ ∨ Mode.bank mode = Bank.FIQ then
    let banked1 : Nat → Nat → Nat := fun j k =>
      if j = old ∧ k < 7 then s.gpr (k + 8) else s.gpr_banked j k
    { s with
        cpsr := cpsr1, spsr := spsr1, gpr_banked := banked1,
        gpr := fun i => if 8 ≤ i ∧ i < 15 then banked1 new (i - 8) else s.gpr i }
  else
    let banked1 : Nat → Nat → Nat := fun j k =>
      if j = old ∧ (k = 5 ∨ k = 6) then s.gpr (k + 8) else s.gpr_banked j k
    { s with
        cpsr := cpsr1, spsr := spsr1, gpr_banked := banked1,
        gpr := fun i => if i = 13 ∨ i = 14 then banked1 new (i - 8) else s.gpr i }

def switch_mode (s : CpuState) (mode : Mode) : Option CpuState :=
  (modeOfBits (cpsrModeBits s.cpsr)).map fun m0 => switchModeAux s m0 mode

lemma modeOfBits_toBits (m : Mode) : modeOfBits m.toBits = some m := by
  cases m <;> rfl

lemma eq_toBits_of_modeOfBits {b : Nat} {m : Mode} (h : modeOfBits b = some m) :
    b = m.toBits := by
  unfold modeOfBits at h
  split_ifs at h <;> cases m <;> simp_all [Mode.toBits]

lemma cpsrModeBits_setModeBits (x : Nat) (m : Mode) :
    cpsrModeBits (setModeBits x m) = m.toBits := by
  unfold cpsrModeBits setModeBits getField
  rw [Nat.shiftRight_zero, Nat.and_distrib_right, Nat.land_assoc, Nat.land_assoc]
  have e1 : ((0xFFFFFFE0 : Nat) &&& (2 ^ 5 - 1)) = 0 := by rfl
  have e2 : ((0x1F : Nat) &&& (2 ^ 5 - 1)) = 31 := by rfl
  rw [e1, e2, Nat.and_zero, Nat.zero_or]
  cases m <;> rfl

lemma setModeBits_restore (x : Nat) (M m : Mode) (hx : x < 2 ^ 32)
    (h : cpsrModeBits x = m.toBits) : setModeBits (setModeBits x M) m = x := by
  unfold cpsrModeBits getField at h
  rw [Nat.shiftRight_zero] at h
  unfold setModeBits
  rw [Nat.and_distrib_right, Nat.land_assoc, Nat.land_assoc]
  have h1 : ((0xFFFFFFE0 : Nat) &&& 0xFFFFFFE0) = 0xFFFFFFE0 := by rfl
  have h2 : (((0x1F : Nat)) &&& 0xFFFFFFE0) = 0 := by rfl
  have h3 : m.toBits &&& 0x1F = m.toBits := by cases m <;> rfl
  rw [h1, h2, Nat.and_zero, Nat.or_zero, h3, ← h, ← Nat.and_or_distrib_left]
  have h4 : ((0xFFFFFFE0 : Nat) ||| (2 ^ 5 - 1)) = 2 ^ 32 - 1 := by rfl
  rw [h4, Nat.and_pow_two_sub_one_eq_mod, Nat.mod_eq_of_lt hx]

lemma switchModeAux_cpsr (s : CpuState) (m0 mode : Mode) :
    (switchModeAux s m0 mode).cpsr = setModeBits s.cpsr mode := by
  unfold switchModeAux
  split <;> split <;> rfl

/-- The register file returns to its original value after a switch to any
mode followed by the switch back. -/
lemma switchModeAux_gpr_roundtrip (s : CpuState) (m0 M : Mode) :
    (switchModeAux (switchModeAux s m0 M) M m0).gpr = s.gpr := by
  unfold switchModeAux
  by_cases hb : Mode.bank m0 = Bank.FIQ ∨ Mode.bank M = Bank.FIQ
  · have hb2 : Mode.bank M = Bank.FIQ ∨ Mode.bank m0 = Bank.FIQ := hb.symm
    rw [if_pos hb]
    simp only [if_pos hb2]
    funext i
    by_cases hi : 8 ≤ i ∧ i < 15
    · have hk : i - 8 + 8 = i := by omega
      have hk7 : i - 8 < 7 := by omega
      by_cases he : (Mode.bank m0).idx = (Mode.bank M).idx <;>
        simp [hi, hk, hk7, he]
    · simp [hi]
  · have hb2 : ¬ (Mode.bank M = Bank.FIQ ∨ Mode.bank m0 = Bank.FIQ) := fun h => hb h.symm
    rw [if_neg hb]
    simp only [if_neg hb2]
    funext i
    by_cases hi : i = 13 ∨ i = 14
    · have hk : i - 8 + 8 = i := by omega
      have hk56 : i - 8 = 5 ∨ i - 8 = 6 := by omega
      by_cases he : (Mode.bank m0).idx = (Mode.bank M).idx <;>
        simp [hi, hk, hk56, he]
    · simp [hi]

/-- C8: switching to any mode M and back restores all sixteen general
registers and the CPSR. -/
theorem c8_switch_mode_roundtrip (s : CpuState) (M m0 : Mode)
    (hm : modeOfBits (cpsrModeBits s.cpsr) = some m0) (hc : s.cpsr < 2 ^ 32) :
    ∃ s1 s2, switch_mode s M = some s1 ∧ switch_mode s1 m0 = some s2 ∧
      s2.gpr = s.gpr ∧ s2.cpsr = s.cpsr := by
  refine ⟨switchModeAux s m0 M, switchModeAux (switchModeAux s m0 M) M m0, ?_, ?_, ?_, ?_⟩
  · unfold switch_mode
    rw [hm]
    rfl
  · unfold switch_mode
    rw [switchModeAux_cpsr, cpsrModeBits_setModeBits, modeOfBits_toBits]
    rfl
  · exact switchModeAux_gpr_roundtrip s m0 M
  · rw [switchModeAux_cpsr, switchModeAux_cpsr]
    exact setModeBits_restore s.cpsr M m0 hc (eq_toBits_of_modeOfBits hm)

/-- A System-mode CPU state with distinctive register values. -/
def c8State : CpuState :=
  { gpr := fun i => 100 + i, gpr_banked := fun j k => j * 10 + k,
    cpsr := 0x1f, spsr := 255, spsr_banked := fun _ => 0 }

/-- Witness for C8: the state above switched to FIQ and back. -/
theorem c8_switch_mode_roundtrip_witness :
    ∃ s1 s2,
      switch_mode c8State Mode.Fiq = some s1 ∧
      switch_mode s1 Mode.System = some s2 ∧
      s2.gpr = (fun i => 100 + i) ∧ s2.cpsr = 0x1f := by
  exact c8_switch_mode_roundtrip c8State Mode.Fiq Mode.System (by rfl) (by decide)

/-- `Condition::table()` as a function of condition code and NZCV nibble. -/
def condTable (cond i : Nat) : Bool :=
  let n := (i &&& 8) != 0
  let z := (i &&& 4) != 0
  let c := (i &&& 2) != 0
  let v := (i &&& 1) != 0
  if cond = 0 then z
  else if cond = 1 then !z
  else if cond = 2 then c
  else if cond = 3 then !c
  else if cond = 4 then n
  else if cond = 5 then !n
  else if cond = 6 then v
  else if cond = 7 then !v
  else if cond = 8 then c && !z
  else if cond = 9 then !c || z
  else if cond = 10 then n == v
  else if cond = 11 then n != v
  else if cond = 12 then !z && (n == v)
  else if cond = 13 then z || (n != v)
  else true

structure Cpu where
  gpr : Nat → Nat
  cpsr : Nat
  pipeline0 : Nat
  pipeline1 : Nat
  instruction : Nat
  arch : Arch
  irqLine : Bool
  halted : Bool

/-- `Cpu::evaluate_cond`: the NV code is special-cased (BLX on the later
CPU, never-executed otherwise); all other codes go through the table. -/
def Cpu.evaluate_cond (c : Cpu) (cond : Nat) : Bool :=
  if cond = 15 then (c.arch == Arch.ARMv5) && (c.instruction &&& 0x0e000000 == 0x0a000000)
  else condTable cond (c.cpsr >>> 28)

/-- One iteration of the `Cpu::run` loop, parameterized by the decode
tables (handlers are opaque `Cpu → Nat → Cpu` functions) and the code
memory.  `none` marks the jump into `handle_interrupt`, whose internals
this claim does not reach. -/
def runTick (decodeThumb decodeArm : Nat → Cpu → Nat → Cpu)
    (memHalf memWord : Nat → Nat) (c : Cpu) : Option Cpu :=
  if c.halted then some c
  else if c.irqLine ∧ ¬ c.cpsr.testBit 7 then none
  else
    let c1 := { c with instruction := c.pipeline0, pipeline0 := c.pipeline1 }
    if c1.cpsr.testBit 5 then
      let pc := c1.gpr 15 &&& 0xFFFFFFFE
      let c2 := { c1 with
        gpr := fun i => if i = 15 then pc else c1.gpr i,
        pipeline1 := memHalf pc }
      some ((decodeThumb c2.instruction) c2 c2.instruction)
    else
      let pc := c1.gpr 15 &&& 0xFFFFFFFC
      let c2 := { c1 with
        gpr := fun i => if i = 15 then pc else c1.gpr i,
        pipeline1 := memWord pc }
      if c2.evaluate_cond (c2.instruction >>> 28) then
        some ((decodeArm c2.instruction) c2 c2.instruction)
      else
        some { c2 with gpr := fun i => if i = 15 then (c2.gpr 15 + 4) % u32M else c2.gpr i }

/-- C10: on the ARMv4 CPU an ARM instruction with condition field 0b1111
is never dispatched — the step's outcome does not depend on either decode
table — and the PC advances by 4 past the (word-aligned) fetch address. -/
theorem c10_armv4_nv_never_executes
    (dt1 dt2 da1 da2 : Nat → Cpu → Nat → Cpu) (mh mw : Nat → Nat) (c : Cpu)
    (harch : c.arch = Arch.ARMv4)
    (hhalt : c.halted = false)
    (hirq : c.irqLine = false)
    (hthumb : c.cpsr.testBit 5 = false)
    (hcond : c.pipeline0 >>> 28 = 15) :
    runTick dt1 da1 mh mw c = runTick dt2 da2 mh mw c ∧
      ((runTick dt1 da1 mh mw c).map fun c2 =>
          (c2.gpr 15, c2.instruction, c2.pipeline0, c2.pipeline1)) =
        some (((c.gpr 15 &&& 0xFFFFFFFC) + 4) % u32M, c.pipeline0, c.pipeline1,
          mw (c.gpr 15 &&& 0xFFFFFFFC)) := by
  have hfalse : ∀ x : Nat,
      ((Arch.ARMv4 == Arch.ARMv5) && (x &&& 0x0e000000 == 0x0a000000)) = false := by
    intro x
    rfl
  constructor
  · simp [runTick, hhalt, hirq, hthumb, hcond, Cpu.evaluate_cond, harch, hfalse]
  · simp [runTick, hhalt, hirq, hthumb, hcond, Cpu.evaluate_cond, harch, hfalse]

/-- The concrete ARMv4 CPU state of the C10 witness: condition field
0b1111 in the oldest pipeline slot, PC 0x102. -/
def nvCpu : Cpu :=
  { gpr := fun i => if i = 15 then 0x102 else 0, cpsr := 0, pipeline0 := 0xF0000000,
    pipeline1 := 0x111, instruction := 0, arch := Arch.ARMv4,
    irqLine := false, halted := false }

theorem c10_armv4_nv_never_executes_witness :
    runTick (fun _ c _ => c) (fun _ c _ => c) (fun _ => 0) (fun _ => 0) nvCpu =
      runTick (fun _ c _ => { c with cpsr := 77 }) (fun _ c _ => { c with cpsr := 99 })
        (fun _ => 0) (fun _ => 0) nvCpu ∧
      ((runTick (fun _ c _ => c) (fun _ c _ => c) (fun _ => 0) (fun _ => 0) nvCpu).map
          fun c2 => (c2.gpr 15, c2.instruction, c2.pipeline0, c2.pipeline1)) =
        some (0x104, 0xF0000000, 0x111, 0) := by
  obtain ⟨h1, h2⟩ :=
    c10_armv4_nv_never_executes (fun _ c _ => c) (fun _ c _ => { c with cpsr := 77 })
      (fun _ c _ => c) (fun _ c _ => { c with cpsr := 99 }) (fun _ => 0) (fun _ => 0)
      nvCpu rfl rfl rfl (by decide) (by decide)
  refine ⟨h1, ?_⟩
  rw [h2]
  decide

/-! ## IPC (src/core/hardware/ipc.rs, src/util/ringbuf.rs, src/core/hardware/irq.rs)

The two sides are indexed as in the source: `arch as usize`, ARMv4 = 0
(the arm7 side) and ARMv5 = 1 (the arm9 side).  The `IrqSource` values
used here are IPCSync = 16, IPCSendEmpty = 17, IPCReceiveNonEmpty = 18. -/

def Arch.toIdx : Arch → Nat
  | Arch.ARMv4 => 0
  | Arch.ARMv5 => 1

/-- `impl Not for Arch`. -/
def Arch.other : Arch → Arch
  | Arch.ARMv4 => Arch.ARMv5
  | Arch.ARMv5 => Arch.ARMv4

/-- Single-bit store generated by the `bitfield!` macro on a `w`-bit
register: `(raw & !(1 << b)) | (val << b)`. -/
def bitSet (w raw b : Nat) (v : Bool) : Nat :=
  (raw &&& ((2 ^ w - 1) ^^^ (1 <<< b))) ||| ((if v then 1 else 0) <<< b)

lemma testBit_bitSet_ne (w raw b : Nat) (v : Bool) (i : Nat) (hne : i ≠ b)
    (hi : i < w) : (bitSet w raw b v).testBit i = raw.testBit i := by
  unfold bitSet
  cases v <;>
    simp [Nat.testBit_lor, Nat.testBit_land, Nat.testBit_xor, Nat.one_shiftLeft,
      Nat.testBit_two_pow_sub_one, Nat.testBit_two_pow, Nat.zero_shiftLeft,
      hi, Ne.symm hne]

lemma testBit_bitSet_self (w raw b : Nat) (v : Bool) (hb : b < w) :
    (bitSet w raw b v).testBit b = v := by
  unfold bitSet
  cases v <;>
    simp [Nat.testBit_lor, Nat.testBit_land, Nat.testBit_xor, Nat.one_shiftLeft,
      Nat.testBit_two_pow_sub_one, Nat.testBit_two_pow, Nat.zero_shiftLeft, hb]

/-- `RingBuffer<u32, 16>`; the backing array is a total map (indices
0..15 are the ones the source touches). -/
structure Ring where
  head : Nat
  tail : Nat
  items : Nat
  buf : Nat → Nat

def Ring.is_empty (r : Ring) : Bool := r.items == 0

def Ring.is_full (r : Ring) : Bool := r.items == 16

def Ring.push (r : Ring) (v : Nat) : Ring :=
  if r.is_full then r
  else
    { r with
        buf := fun i => if i = r.tail then v else r.buf i,
        tail := (r.tail + 1) % 16,
        items := r.items + 1 }

def Ring.front (r : Ring) : Nat := r.buf r.head

def Ring.pop (r : Ring) : Nat × Ring :=
  (r.buf r.head,
    if r.is_empty then r
    else { r with head := (r.head + 1) % 16, items := r.items - 1 })

def Ring.clear (r : Ring) : Ring := { r with head := 0, tail := 0, items := 0 }

structure IrqState where
  ime : Bool
  ie : Nat
  irf : Nat
  deriving Repr, DecidableEq

structure CpuBox where
  halted : Bool
  irqLine : Bool
  deriving Repr, DecidableEq

/-- The slice of `System` the IPC paths touch: both sides' IPC registers
and FIFOs, and both CPUs' IRQ controllers and halt/IRQ lines. -/
structure IpcSystem where
  ipcsync : Nat → Nat
  ipcfifocnt : Nat → Nat
  fifo : Nat → Ring
  ipcfiforecv : Nat → Nat
  irq : Nat → IrqState
  cpu : Nat → CpuBox

/-- `Irq::raise` on the CPU at index `target` (0 = arm7/ARMv4, 1 = arm9):
latch the IF bit, un-halt when enabled and (IME or ARMv4), then update
the CPU's IRQ line. -/
def raiseIrq (sys : IpcSystem) (target source : Nat) : IpcSystem :=
  let irq0 := sys.irq target
  let irf1 := irq0.irf ||| (1 <<< source)
  let cpu0 := sys.cpu target
  let cpu1 :=
    if irq0.ie &&& (1 <<< source) ≠ 0 ∧ (irq0.ime = true ∨ target = 0) then
      { cpu0 with halted := false }
    else cpu0
  let cpu2 := { cpu1 with irqLine := irq0.ime && ((irq0.ie &&& irf1) != 0) }
  { sys with
      irq := fun i => if i = target then { irq0 with irf := irf1 } else sys.irq i,
      cpu := fun i => if i = target then cpu2 else sys.cpu i }

/-- `IpcSync::set_input` (bit range 0..=3 of the 32-bit register). -/
def setInput (raw v : Nat) : Nat := (raw &&& 0xFFFFFFF0) ||| (v &&& 0xF)

/-- `Ipc::write_ipcsync`. -/
def write_ipcsync (sys : IpcSystem) (arch : Arch) (val mask : Nat) : IpcSystem :=
  let tx := arch.toIdx
  let rx := arch.other.toIdx
  let m := mask &&& 0x6f00
  let sync_tx := (sys.ipcsync tx &&& (0xFFFFFFFF ^^^ m)) ||| (val &&& m)
  let sync_rx := setInput (sys.ipcsync rx) (getField sync_tx 8 4)
  let sys1 := { sys with
    ipcsync := fun i => if i = tx then sync_tx else if i = rx then sync_rx else sys.ipcsync i }
  if sync_tx.testBit 13 ∧ sync_rx.testBit 14 then raiseIrq sys1 rx 16 else sys1

/-- `Ipc::write_ipcfifosend`. -/
def write_ipcfifosend (sys : IpcSystem) (arch : Arch) (val : Nat) : IpcSystem :=
  let tx := arch.toIdx
  let rx := arch.other.toIdx
  if (sys.ipcfifocnt tx).testBit 15 then
    if (sys.fifo tx).items < 16 then
      let f1 := (sys.fifo tx).push val
      let sys1 := { sys with fifo := fun i => if i = tx then f1 else sys.fifo i }
      if f1.items = 1 then
        let sys2 := { sys1 with
          ipcfifocnt := fun i =>
            if i = tx then bitSet 16 (sys1.ipcfifocnt tx) 0 false
            else if i = rx then bitSet 16 (sys1.ipcfifocnt rx) 8 false
            else sys1.ipcfifocnt i }
        if (sys2.ipcfifocnt rx).testBit 10 then raiseIrq sys2 rx 18 else sys2
      else if f1.items = 16 then
        { sys1 with
          ipcfifocnt := fun i =>
            if i = tx then bitSet 16 (sys1.ipcfifocnt tx) 1 true
            else if i = rx then bitSet 16 (sys1.ipcfifocnt rx) 9 true
            else sys1.ipcfifocnt i }
      else sys1
    else
      { sys with
        ipcfifocnt := fun i =>
          if i = tx then bitSet 16 (sys.ipcfifocnt tx) 14 true else sys.ipcfifocnt i }
  else sys

/-- `Ipc::read_ipcfiforecv`: returns the value read and the new state. -/
def read_ipcfiforecv (sys : IpcSystem) (arch : Arch) : Nat × IpcSystem :=
  let tx := arch.toIdx
  let rx := arch.other.toIdx
  if (sys.fifo rx).is_empty = false then
    let sys1 := { sys with
      ipcfiforecv := fun i => if i = tx then (sys.fifo rx).front else sys.ipcfiforecv i }
    let sysF :=
      if (sys1.ipcfifocnt tx).testBit 15 then
        let f1 := ((sys1.fifo rx).pop).2
        let sys2 := { sys1 with fifo := fun i => if i = rx then f1 else sys1.fifo i }
        if f1.is_empty then
          let sys3 := { sys2 with
            ipcfifocnt := fun i =>
              if i = rx then bitSet 16 (sys2.ipcfifocnt rx) 0 true
              else if i = tx then bitSet 16 (sys2.ipcfifocnt tx) 8 true
              else sys2.ipcfifocnt i }
          if (sys3.ipcfifocnt rx).testBit 2 then raiseIrq sys3 rx 17 else sys3
        else if f1.items = 15 then
          { sys2 with
            ipcfifocnt := fun i =>
              if i = rx then bitSet 16 (sys2.ipcfifocnt rx) 1 false
              else if i = tx then bitSet 16 (sys2.ipcfifocnt tx) 9 false
              else sys2.ipcfifocnt i }
        else sys2
      else sys1
    (sysF.ipcfiforecv tx, sysF)
  else
    let sysE := { sys with
      ipcfifocnt := fun i =>
        if i = tx then bitSet 16 (sys.ipcfifocnt tx) 14 true else sys.ipcfifocnt i }
    (sysE.ipcfiforecv tx, sysE)

/-- The all-zero IPC system state. -/
def ipcSys0 : IpcSystem :=
  { ipcsync := fun _ => 0, ipcfifocnt := fun _ => 0,
    fifo := fun _ => { head := 0, tail := 0, items := 0, buf := fun _ => 0 },
    ipcfiforecv := fun _ => 0,
    irq := fun _ => { ime := false, ie := 0, irf := 0 },
    cpu := fun _ => { halted := false, irqLine := false } }

/-- C6 counterexample: the write mask is `0x6f00`, which excludes bit
12, so a write of bit 12 with a full byte mask is dropped; the claim
("exactly bits 8-14") would leave bit 12 set. -/
theorem c6_ipcsync_bit12_counterexample :
    (write_ipcsync ipcSys0 Arch.ARMv4 0x1000 0xFFFFFFFF).ipcsync 0 = 0 ∧
      (0 : Nat) ≠ 0x1000 := by
  exact ⟨rfl, by decide⟩

lemma testBit_ffffffff {i : Nat} (hi : i < 32) :
    Nat.testBit 0xFFFFFFFF i = true := by
  have h : (0xFFFFFFFF : Nat) = 2 ^ 32 - 1 := by rfl
  rw [h, Nat.testBit_two_pow_sub_one]
  exact decide_eq_true hi

lemma testBit_fffffff0 (i : Nat) :
    Nat.testBit 0xFFFFFFF0 i = ((decide (i < 32)).xor (decide (i < 4))) := by
  have h : (0xFFFFFFF0 : Nat) = (2 ^ 32 - 1) ^^^ (2 ^ 4 - 1) := by rfl
  rw [h, Nat.testBit_xor, Nat.testBit_two_pow_sub_one, Nat.testBit_two_pow_sub_one]

lemma testBit_f (i : Nat) : Nat.testBit 0xF i = decide (i < 4) := by
  have h : (0xF : Nat) = 2 ^ 4 - 1 := by rfl
  rw [h, Nat.testBit_two_pow_sub_one]

/-- C6 amended: an IPCSYNC write applies exactly bits 8-11, 13 and 14 of
the write (mask `0x6f00`, bit 12 excluded) to the writer's register,
mirrors the writer's output nibble (bits 8-11) into the other side's
input nibble (bits 0-3) leaving its other bits unchanged, and when the
written send_irq_pulse bit (13) and the receiver's enable_recv_irq bit
(14) are both set, latches the IPCSYNC IRQ (IF bit 16) on the receiving
CPU. -/
theorem c6_ipcsync_write (sys : IpcSystem) (arch : Arch) (val mask : Nat)
    (hrx : sys.ipcsync arch.other.toIdx < 2 ^ 32) :
    (∀ i, i < 32 →
      ((write_ipcsync sys arch val mask).ipcsync arch.toIdx).testBit i =
        if (0x6f00 : Nat).testBit i ∧ mask.testBit i then val.testBit i
        else (sys.ipcsync arch.toIdx).testBit i) ∧
    (∀ i, i < 4 →
      ((write_ipcsync sys arch val mask).ipcsync arch.other.toIdx).testBit i =
        ((write_ipcsync sys arch val mask).ipcsync arch.toIdx).testBit (8 + i)) ∧
    (∀ i, 4 ≤ i → i < 32 →
      ((write_ipcsync sys arch val mask).ipcsync arch.other.toIdx).testBit i =
        (sys.ipcsync arch.other.toIdx).testBit i) ∧
    (((write_ipcsync sys arch val mask).ipcsync arch.toIdx).testBit 13 = true →
      (sys.ipcsync arch.other.toIdx).testBit 14 = true →
      ((write_ipcsync sys arch val mask).irq arch.other.toIdx).irf.testBit 16 = true) := by
  have hneq : arch.other.toIdx ≠ arch.toIdx := by cases arch <;> decide
  have hsync : (write_ipcsync sys arch val mask).ipcsync = fun i =>
      if i = arch.toIdx then
        (sys.ipcsync arch.toIdx &&& (0xFFFFFFFF ^^^ (mask &&& 0x6f00))) |||
          (val &&& (mask &&& 0x6f00))
      else if i = arch.other.toIdx then
        setInput (sys.ipcsync arch.other.toIdx)
          (getField ((sys.ipcsync arch.toIdx &&& (0xFFFFFFFF ^^^ (mask &&& 0x6f00))) |||
            (val &&& (mask &&& 0x6f00))) 8 4)
      else sys.ipcsync i := by
    unfold write_ipcsync raiseIrq
    dsimp only
    split <;> rfl
  have htx : ∀ i, i < 32 →
      ((write_ipcsync sys arch val mask).ipcsync arch.toIdx).testBit i =
        if (0x6f00 : Nat).testBit i ∧ mask.testBit i then val.testBit i
        else (sys.ipcsync arch.toIdx).testBit i := by
    intro i hi
    rw [hsync]
    simp only [if_pos rfl]
    cases hm : mask.testBit i <;> cases h6 : (0x6f00 : Nat).testBit i <;>
      simp [Nat.testBit_lor, Nat.testBit_land, Nat.testBit_xor, hm, h6,
        testBit_ffffffff hi]
  have hpres : ∀ i, 4 ≤ i → i < 32 →
      ((write_ipcsync sys arch val mask).ipcsync arch.other.toIdx).testBit i =
        (sys.ipcsync arch.other.toIdx).testBit i := by
    intro i h4 hi
    rw [hsync]
    simp only [if_neg hneq, if_pos rfl]
    unfold setInput
    have hn4 : decide (i < 4) = false := by simp; omega
    simp [Nat.testBit_lor, Nat.testBit_land, testBit_fffffff0, testBit_f,
      decide_eq_true hi, hn4]
  refine ⟨htx, ?_, hpres, ?_⟩
  · intro i hi
    rw [hsync]
    simp only [if_neg hneq, if_pos rfl]
    unfold setInput getField
    have h32 : decide (i < 32) = true := by simp; omega
    have h4 : decide (i < 4) = true := by simp [hi]
    simp [Nat.testBit_lor, Nat.testBit_land, Nat.testBit_shiftRight,
      testBit_fffffff0, testBit_f, Nat.testBit_two_pow_sub_one, h32, h4]
  · intro h13 h14
    have hsynctx : (write_ipcsync sys arch val mask).ipcsync arch.toIdx =
        (sys.ipcsync arch.toIdx &&& (0xFFFFFFFF ^^^ (mask &&& 0x6f00))) |||
          (val &&& (mask &&& 0x6f00)) := by
      rw [hsync]
      simp
    rw [hsynctx] at h13
    have h14b : (setInput (sys.ipcsync arch.other.toIdx)
        (getField ((sys.ipcsync arch.toIdx &&& (0xFFFFFFFF ^^^ (mask &&& 0x6f00))) |||
          (val &&& (mask &&& 0x6f00))) 8 4)).testBit 14 = true := by
      unfold setInput
      simp [Nat.testBit_lor, Nat.testBit_land, testBit_fffffff0, testBit_f, h14]
    unfold write_ipcsync
    dsimp only
    rw [if_pos ⟨h13, h14b⟩]
    unfold raiseIrq
    dsimp only
    simp [Nat.testBit_lor, Nat.one_shiftLeft, Nat.testBit_two_pow]
    exact Or.inr (by decide)

/-- The IPC state of the C6 witness: receiver (arm9) has
enable_recv_irq set. -/
def ipcSys1 : IpcSystem :=
  { ipcSys0 with ipcsync := fun i => if i = 1 then 0x4000 else 0 }

/-- Witness for C6: the arm7 writes output nibble 1 with the IRQ-pulse
bit; bit 13 lands, bit 12 does not, the input nibble mirrors, and the
arm9 receives the IPCSYNC IRQ. -/
theorem c6_ipcsync_write_witness :
    ((write_ipcsync ipcSys1 Arch.ARMv4 0x3100 0xFFFF).ipcsync Arch.ARMv4.toIdx).testBit 13 =
        true ∧
      ((write_ipcsync ipcSys1 Arch.ARMv4 0x3100 0xFFFF).ipcsync Arch.ARMv4.toIdx).testBit 12 =
        false ∧
      ((write_ipcsync ipcSys1 Arch.ARMv4 0x3100 0xFFFF).ipcsync
          Arch.ARMv4.other.toIdx).testBit 0 = true ∧
      ((write_ipcsync ipcSys1 Arch.ARMv4 0x3100 0xFFFF).irq
          Arch.ARMv4.other.toIdx).irf.testBit 16 = true := by
  obtain ⟨h1, h2, h3, h4⟩ := c6_ipcsync_write ipcSys1 Arch.ARMv4 0x3100 0xFFFF (by decide)
  refine ⟨?_, ?_, ?_, ?_⟩
  · rw [h1 13 (by decide)]
    decide
  · rw [h1 12 (by decide)]
    decide
  · rw [h2 0 (by decide), h1 8 (by decide)]
    decide
  · refine h4 ?_ (by decide)
    rw [h1 13 (by decide)]
    decide

/-! ### FIFO round trip (C5) -/

/-- The queue a ring buffer represents, oldest first. -/
def ringList (r : Ring) : List Nat :=
  (List.range r.items).map fun i => r.buf ((r.head + i) % 16)

/-- Representation invariant maintained by the ring-buffer operations. -/
def wfRing (r : Ring) : Prop :=
  r.head < 16 ∧ r.tail = (r.head + r.items) % 16 ∧ r.items ≤ 16

lemma ringList_length (r : Ring) : (ringList r).length = r.items := by
  simp [ringList]

lemma push_spec (r : Ring) (v : Nat) (hwf : wfRing r) (hlt : r.items < 16) :
    wfRing (r.push v) ∧ ringList (r.push v) = ringList r ++ [v] := by
  obtain ⟨hh, ht, hle⟩ := hwf
  have hfull : r.is_full = false := by
    simp [Ring.is_full]
    omega
  unfold Ring.push
  rw [hfull]
  simp only [Bool.false_eq_true, if_false]
  constructor
  · refine ⟨hh, ?_, ?_⟩
    · dsimp only
      rw [ht]
      omega
    · dsimp only
      omega
  · unfold ringList
    simp only [List.range_succ, List.map_append, List.map_cons, List.map_nil]
    congr 1
    · apply List.map_congr_left
      intro i hi
      have hilt : i < r.items := List.mem_range.mp hi
      have hne2 : (r.head + i) % 16 ≠ r.tail := by
        rw [ht]
        omega
      simp [hne2]
    · rw [ht]
      simp

lemma pop_spec (r : Ring) (v : Nat) (l : List Nat) (hwf : wfRing r)
    (hl : ringList r = v :: l) :
    r.front = v ∧ wfRing (r.pop).2 ∧ ringList (r.pop).2 = l ∧
      (r.pop).2.items + 1 = r.items := by
  obtain ⟨hh, ht, hle⟩ := hwf
  have hlen : r.items = l.length + 1 := by
    have h := congrArg List.length hl
    rw [ringList_length] at h
    simpa using h
  have hemp : r.is_empty = false := by
    simp [Ring.is_empty]
    omega
  have hpop : (r.pop).2 = { r with head := (r.head + 1) % 16, items := r.items - 1 } := by
    unfold Ring.pop
    rw [hemp]
    simp
  have hmain : ringList r = r.buf (r.head % 16) ::
      (List.range l.length).map (fun i => r.buf ((r.head + (i + 1)) % 16)) := by
    rw [ringList, hlen, List.range_succ_eq_map, List.map_cons, List.map_map]
    congr 1
  have hcons := hmain.symm.trans hl
  simp only [List.cons.injEq] at hcons
  obtain ⟨hv, hM⟩ := hcons
  refine ⟨?_, ?_, ?_, ?_⟩
  · unfold Ring.front
    rw [Nat.mod_eq_of_lt hh] at hv
    exact hv
  · rw [hpop]
    refine ⟨?_, ?_, ?_⟩
    · dsimp only
      omega
    · dsimp only
      rw [ht]
      omega
    · dsimp only
      omega
  · rw [hpop]
    unfold ringList
    dsimp only
    rw [show r.items - 1 = l.length by omega]
    conv_rhs => rw [← hM]
    apply List.map_congr_left
    intro i _
    congr 1
    omega
  · rw [hpop]
    dsimp only
    omega

lemma raiseIrq_fifo (s : IpcSystem) (t src : Nat) : (raiseIrq s t src).fifo = s.fifo := rfl

lemma raiseIrq_ipcfifocnt (s : IpcSystem) (t src : Nat) :
    (raiseIrq s t src).ipcfifocnt = s.ipcfifocnt := rfl

lemma raiseIrq_ipcfiforecv (s : IpcSystem) (t src : Nat) :
    (raiseIrq s t src).ipcfiforecv = s.ipcfiforecv := rfl

/-- Effect of a send on the writer's FIFO and on the enable bits. -/
lemma send_spec (sys : IpcSystem) (P : Arch) (v : Nat)
    (hen : (sys.ipcfifocnt P.toIdx).testBit 15 = true)
    (hlt : (sys.fifo P.toIdx).items < 16) :
    (write_ipcfifosend sys P v).fifo P.toIdx = (sys.fifo P.toIdx).push v ∧
      (∀ j, ((write_ipcfifosend sys P v).ipcfifocnt j).testBit 15 =
        (sys.ipcfifocnt j).testBit 15) := by
  unfold write_ipcfifosend
  rw [if_pos hen, if_pos hlt]
  dsimp only
  split_ifs with h1 h2 h3 <;>
    refine ⟨by simp [raiseIrq_fifo], ?_⟩ <;> intro j <;>
    (try rw [raiseIrq_ipcfifocnt]) <;> (try dsimp only) <;> (try split_ifs) <;>
    simp_all [testBit_bitSet_ne 16 _ 0 _ 15 (by omega) (by omega),
      testBit_bitSet_ne 16 _ 8 _ 15 (by omega) (by omega),
      testBit_bitSet_ne 16 _ 1 _ 15 (by omega) (by omega),
      testBit_bitSet_ne 16 _ 9 _ 15 (by omega) (by omega)]

/-- Effect of a read from a nonempty FIFO with the reader enabled. -/
lemma recv_spec (sys : IpcSystem) (Q : Arch)
    (hen : (sys.ipcfifocnt Q.toIdx).testBit 15 = true)
    (hne : (sys.fifo Q.other.toIdx).items ≠ 0) :
    (read_ipcfiforecv sys Q).1 = (sys.fifo Q.other.toIdx).front ∧
      (read_ipcfiforecv sys Q).2.fifo Q.other.toIdx = ((sys.fifo Q.other.toIdx).pop).2 ∧
      (∀ j, ((read_ipcfiforecv sys Q).2.ipcfifocnt j).testBit 15 =
        (sys.ipcfifocnt j).testBit 15) := by
  unfold read_ipcfiforecv
  have hempf : (sys.fifo Q.other.toIdx).is_empty = false := by
    simp [Ring.is_empty]
    omega
  rw [if_pos hempf]
  (try dsimp only)
  rw [if_pos hen]
  (try dsimp only)
  split_ifs with h1 h2 h3 <;>
    refine ⟨by simp [raiseIrq_ipcfiforecv], by simp [raiseIrq_fifo], ?_⟩ <;> intro j <;>
    (try rw [raiseIrq_ipcfifocnt]) <;> (try dsimp only) <;> (try split_ifs) <;>
    simp_all [testBit_bitSet_ne 16 _ 0 _ 15 (by omega) (by omega),
      testBit_bitSet_ne 16 _ 8 _ 15 (by omega) (by omega),
      testBit_bitSet_ne 16 _ 1 _ 15 (by omega) (by omega),
      testBit_bitSet_ne 16 _ 9 _ 15 (by omega) (by omega)]

/-- Effect of a read from an empty FIFO: the latched value is returned,
the reader's sticky error bit is set, no FIFO changes. -/
lemma recv_empty_spec (sys : IpcSystem) (Q : Arch)
    (hemp : (sys.fifo Q.other.toIdx).items = 0) :
    (read_ipcfiforecv sys Q).1 = sys.ipcfiforecv Q.toIdx ∧
      ((read_ipcfiforecv sys Q).2.ipcfifocnt Q.toIdx).testBit 14 = true ∧
      (read_ipcfiforecv sys Q).2.fifo = sys.fifo := by
  unfold read_ipcfiforecv
  have hempt : (sys.fifo Q.other.toIdx).is_empty = true := by
    simp [Ring.is_empty, hemp]
  rw [if_neg (by rw [hempt]; simp)]
  refine ⟨rfl, ?_, rfl⟩
  dsimp only
  rw [if_pos rfl]
  exact testBit_bitSet_self 16 _ 14 true (by omega)

def pushAll (sys : IpcSystem) (arch : Arch) (ws : List Nat) : IpcSystem :=
  ws.foldl (fun s v => write_ipcfifosend s arch v) sys

def readN (arch : Arch) : Nat → IpcSystem → List Nat × IpcSystem
  | 0, sys => ([], sys)
  | n + 1, sys =>
      let p := read_ipcfiforecv sys arch
      let q := readN arch n p.2
      (p.1 :: q.1, q.2)

lemma pushAll_spec (P : Arch) : ∀ (ws : List Nat) (sys : IpcSystem),
    (sys.ipcfifocnt P.toIdx).testBit 15 = true →
    wfRing (sys.fifo P.toIdx) →
    (sys.fifo P.toIdx).items + ws.length ≤ 16 →
    wfRing ((pushAll sys P ws).fifo P.toIdx) ∧
      ringList ((pushAll sys P ws).fifo P.toIdx) = ringList (sys.fifo P.toIdx) ++ ws ∧
      ∀ j, ((pushAll sys P ws).ipcfifocnt j).testBit 15 =
        (sys.ipcfifocnt j).testBit 15 := by
  intro ws
  induction ws with
  | nil => intro sys _ hwf _; exact ⟨hwf, by simp [pushAll], fun j => rfl⟩
  | cons v ws ih =>
      intro sys hen hwf hle
      have hlt : (sys.fifo P.toIdx).items < 16 := by
        simp at hle
        omega
      obtain ⟨hfifo, hcnt⟩ := send_spec sys P v hen hlt
      obtain ⟨hwf1, hrl1⟩ := push_spec _ v hwf hlt
      have hitems : ((sys.fifo P.toIdx).push v).items = (sys.fifo P.toIdx).items + 1 := by
        have h1 := ringList_length ((sys.fifo P.toIdx).push v)
        rw [hrl1] at h1
        simp [ringList_length] at h1
        omega
      have step : pushAll sys P (v :: ws) = pushAll (write_ipcfifosend sys P v) P ws := rfl
      rw [step]
      obtain ⟨a, b, c⟩ := ih (write_ipcfifosend sys P v)
        (by rw [hcnt]; exact hen)
        (by rw [hfifo]; exact hwf1)
        (by rw [hfifo, hitems]; simp at hle ⊢; omega)
      refine ⟨a, ?_, fun j => by rw [c j, hcnt j]⟩
      rw [b, hfifo, hrl1]
      simp

lemma readN_spec (Q : Arch) : ∀ (l : List Nat) (sys : IpcSystem),
    (sys.ipcfifocnt Q.toIdx).testBit 15 = true →
    wfRing (sys.fifo Q.other.toIdx) →
    ringList (sys.fifo Q.other.toIdx) = l →
    (readN Q l.length sys).1 = l := by
  intro l
  induction l with
  | nil => intro sys _ _ _; rfl
  | cons v l ih =>
      intro sys hen hwf hl
      have hne : (sys.fifo Q.other.toIdx).items ≠ 0 := by
        have h := ringList_length (sys.fifo Q.other.toIdx)
        rw [hl] at h
        simp at h
        omega
      obtain ⟨hfr, hfifo, hcnt⟩ := recv_spec sys Q hen hne
      obtain ⟨hv, hwf2, hl2, _⟩ := pop_spec _ v l hwf hl
      show ((read_ipcfiforecv sys Q).1 ::
        (readN Q l.length (read_ipcfiforecv sys Q).2).1, _).1 = v :: l
      dsimp only
      congr 1
      · rw [hfr, hv]
      · exact ih (read_ipcfiforecv sys Q).2 (by rw [hcnt]; exact hen)
          (by rw [hfifo]; exact hwf2) (by rw [hfifo]; exact hl2)

/-- C5: with both sides' FIFOs enabled and the sender's FIFO empty,
pushing k <= 16 words and reading k words from the other CPU returns
them in FIFO order; and any read from an empty incoming FIFO returns
the stale latch, sets the reader's sticky error bit (IPCFIFOCNT bit 14)
and leaves every FIFO untouched. -/
theorem c5_fifo_roundtrip (sys : IpcSystem) (P : Arch) (ws : List Nat)
    (hlen : ws.length ≤ 16)
    (hen_w : (sys.ipcfifocnt P.toIdx).testBit 15 = true)
    (hen_r : (sys.ipcfifocnt P.other.toIdx).testBit 15 = true)
    (hemp : (sys.fifo P.toIdx).items = 0)
    (hwf : wfRing (sys.fifo P.toIdx)) :
    (readN P.other ws.length (pushAll sys P ws)).1 = ws ∧
      ∀ (t : IpcSystem) (Q : Arch), (t.fifo Q.other.toIdx).items = 0 →
        (read_ipcfiforecv t Q).1 = t.ipcfiforecv Q.toIdx ∧
        ((read_ipcfiforecv t Q).2.ipcfifocnt Q.toIdx).testBit 14 = true ∧
        (read_ipcfiforecv t Q).2.fifo = t.fifo := by
  constructor
  · obtain ⟨a, b, c⟩ := pushAll_spec P ws sys hen_w hwf (by omega)
    have hre : P.other.other = P := by cases P <;> rfl
    have hnil : ringList (sys.fifo P.toIdx) = [] := by
      unfold ringList
      rw [hemp]
      rfl
    apply readN_spec P.other ws (pushAll sys P ws)
    · rw [c]
      exact hen_r
    · rw [hre]
      exact a
    · rw [hre, b, hnil]
      rfl
  · intro t Q h
    exact recv_empty_spec t Q h

/-- The IPC state of the C5 witness: both sides' FIFOs enabled. -/
def ipcSysEn : IpcSystem := { ipcSys0 with ipcfifocnt := fun _ => 0x8000 }

/-- Witness for C5: pushing [10, 20, 30] from the arm7 and reading three
words on the arm9 returns them in order; a fourth (empty) read returns
the stale latch and sets the arm9's error bit. -/
theorem c5_fifo_roundtrip_witness :
    (readN Arch.ARMv4.other 3 (pushAll ipcSysEn Arch.ARMv4 [10, 20, 30])).1 =
        [10, 20, 30] ∧
      (read_ipcfiforecv ipcSysEn Arch.ARMv5).1 = 0 ∧
      ((read_ipcfiforecv ipcSysEn Arch.ARMv5).2.ipcfifocnt
        Arch.ARMv5.toIdx).testBit 14 = true := by
  obtain ⟨h1, h2⟩ :=
    c5_fifo_roundtrip ipcSysEn Arch.ARMv4 [10, 20, 30] (by decide) (by decide)
      (by decide) (by rfl) ⟨by decide, by decide, by decide⟩
  obtain ⟨e1, e2, _⟩ := h2 ipcSysEn Arch.ARMv5 (by rfl)
  exact ⟨h1, by rw [e1]; rfl, e2⟩

/-! ## VRAM bank routing (src/core/video/vram.rs)

Host pointers into the nine bank buffers are modelled as pairs
`(bank index, byte offset)`; the buffers themselves live in
`Vram.banks`.  A page's bank list and the mapping loops follow
`VramPage`/`VramRegion` line by line; `none` models the panicking
`self.pages[index]` accesses and the `unreachable!()` MST arms.
`write_vramcnt`'s nine per-bank blocks all have the same shape — look
up the hardware assignment of `(bank, mst, offset)` and map the bank
into the target region — so they are factored through `bankTable`,
which transcribes the nine `match` statements one arm at a time. -/

inductive RegionName
  | lcdc
  | bga
  | bgb
  | obja
  | objb
  | arm7Vram
  | textureData
  | texturePalette
  | bgaExtPal
  | bgbExtPal
  | objaExtPal
  | objbExtPal
  deriving Repr, DecidableEq

structure VramPage where
  banks : List (Nat × Nat)
  deriving Repr, DecidableEq

structure VramRegion where
  pages : List VramPage
  deriving Repr, DecidableEq

def VramPage.add_bank (p : VramPage) (ptr : Nat × Nat) : VramPage :=
  ⟨p.banks ++ [ptr]⟩

def VramRegion.reset (r : VramRegion) : VramRegion :=
  ⟨r.pages.map fun _ => ⟨[]⟩⟩

/-- The `for i in 0..pages_to_map` loop of `VramRegion::map`;
`none` is the out-of-bounds `self.pages[index]` panic. -/
def VramRegion.mapLoop (bank off : Nat) : Nat → Nat → VramRegion → Option VramRegion
  | 0, _, r => some r
  | n + 1, i, r =>
      let index := off / 0x1000 + i
      match h : r.pages.get? index with
      | none => none
      | some pg =>
          VramRegion.mapLoop bank off n (i + 1)
            ⟨r.pages.set index (pg.add_bank (bank, i * 0x1000))⟩

def VramRegion.map (r : VramRegion) (bank off len : Nat) : Option VramRegion :=
  VramRegion.mapLoop bank off (len / 0x1000) 0 r

/-- `VramRegion::get_page`. -/
def VramRegion.get_page (r : VramRegion) (addr : Nat) : Option VramPage :=
  let a := addr &&& 0xffffff
  let region := (a >>> 20) &&& 0xf
  let offset := a - region * 0x100000
  r.pages.get? (offset >>> 12)

structure Vram where
  vramcnt : Nat → Nat
  banks : Nat → Nat → Nat
  regions : RegionName → VramRegion
  vramstat : Nat

/-- `VramRegion::read` through `VramPage::read`: OR together the mapped
banks' contents at the in-page offset (`T::default()` = 0 start). -/
def vramRead (v : Vram) (rn : RegionName) (addr : Nat) : Option Nat :=
  ((v.regions rn).get_page addr).map fun pg =>
    pg.banks.foldl (fun data bk => data ||| v.banks bk.1 (bk.2 + (addr &&& 0xFFF))) 0

/-- The write loop of `VramPage::write`: store through every mapped
bank pointer. -/
def writeBanks (v : Vram) (l : List (Nat × Nat)) (off val : Nat) : Vram :=
  l.foldl (fun w bk =>
    { w with banks := fun b i => if b = bk.1 ∧ i = bk.2 + off then val else w.banks b i }) v

/-- `VramRegion::write` through `VramPage::write`. -/
def vramWrite (v : Vram) (rn : RegionName) (addr val : Nat) : Option Vram :=
  ((v.regions rn).get_page addr).map fun pg => writeBanks v pg.banks (addr &&& 0xFFF) val

def cntMst (c : Nat) : Nat := getField c 0 3

def cntOffset (c : Nat) : Nat := getField c 3 2

def cntEnable (c : Nat) : Bool := c.testBit 7

/-- The per-bank VRAMCNT write masks. -/
def vramcntMasks (b : Nat) : Nat :=
  if b = 0 then 0x9b else if b = 1 then 0x9b else if b = 2 then 0x9f
  else if b = 3 then 0x9f else if b = 4 then 0x87 else if b = 5 then 0x9f
  else if b = 6 then 0x9f else if b = 7 then 0x83 else 0x83

/-- The hardware assignment of `(bank, mst, offset)` to
`(target region, region offset, length)`: one arm per arm of the nine
`match` statements in `Vram::write_vramcnt` (spec section 4.11's "large
table").  `none` covers the `unreachable!()` arms. -/
def bankTable (b m o : Nat) : Option (RegionName × Nat × Nat) :=
  if b = 0 then
    if m = 0 then some (RegionName.lcdc, 0, 0x20000)
    else if m = 1 then some (RegionName.bga, o * 0x20000, 0x20000)
    else if m = 2 then some (RegionName.obja, (o &&& 1) * 0x20000, 0x20000)
    else if m = 3 then some (RegionName.textureData, o * 0x20000, 0x20000)
    else none
  else if b = 1 then
    if m = 0 then some (RegionName.lcdc, 0x20000, 0x20000)
    else if m = 1 then some (RegionName.bga, o * 0x20000, 0x20000)
    else if m = 2 then some (RegionName.obja, (o &&& 1) * 0x20000, 0x20000)
    else if m = 3 then some (RegionName.textureData, o * 0x20000, 0x20000)
    else none
  else if b = 2 then
    if m = 0 then some (RegionName.lcdc, 0x40000, 0x20000)
    else if m = 1 then some (RegionName.bga, o * 0x20000, 0x20000)
    else if m = 2 then some (RegionName.arm7Vram, (o &&& 1) * 0x20000, 0x20000)
    else if m = 3 then some (RegionName.textureData, o * 0x20000, 0x20000)
    else if m = 4 then some (RegionName.bgb, 0, 0x20000)
    else none
  else if b = 3 then
    if m = 0 then some (RegionName.lcdc, 0x60000, 0x20000)
    else if m = 1 then some (RegionName.bga, o * 0x20000, 0x20000)
    else if m = 2 then some (RegionName.arm7Vram, (o &&& 1) * 0x20000, 0x20000)
    else if m = 3 then some (RegionName.textureData, o * 0x20000, 0x20000)
    else if m = 4 then some (RegionName.objb, 0, 0x20000)
    else none
  else if b = 4 then
    if m = 0 then some (RegionName.lcdc, 0x80000, 0x10000)
    else if m = 1 then some (RegionName.bga, 0, 0x10000)
    else if m = 2 then some (RegionName.obja, 0, 0x10000)
    else if m = 3 then some (RegionName.texturePalette, 0, 0x10000)
    else if m = 4 then some (RegionName.bgaExtPal, 0, 0x8000)
    else none
  else if b = 5 then
    if m = 0 then some (RegionName.lcdc, 0x90000, 0x4000)
    else if m = 1 then some (RegionName.bga, (o &&& 1) * 0x4000 + (o &&& 2) * 0x10000, 0x4000)
    else if m = 2 then some (RegionName.obja, (o &&& 1) * 0x4000 + (o &&& 2) * 0x10000, 0x4000)
    else if m = 3 then some (RegionName.texturePalette, ((o &&& 1) + (o &&& 2) * 4) * 0x4000, 0x4000)
    else if m = 4 then some (RegionName.bgaExtPal, (o &&& 1) * 0x4000, 0x4000)
    else if m = 5 then some (RegionName.objaExtPal, 0, 0x2000)
    else none
  else if b = 6 then
    if m = 0 then some (RegionName.lcdc, 0x94000, 0x4000)
    else if m = 1 then some (RegionName.bga, (o &&& 1) * 0x4000 + (o &&& 2) * 0x10000, 0x4000)
    else if m = 2 then some (RegionName.obja, (o &&& 1) * 0x4000 + (o &&& 2) * 0x10000, 0x4000)
    else if m = 3 then some (RegionName.texturePalette, ((o &&& 1) + (o &&& 2) * 4) * 0x4000, 0x4000)
    else if m = 4 then some (RegionName.bgaExtPal, (o &&& 1) * 0x4000, 0x4000)
    else if m = 5 then some (RegionName.objaExtPal, 0, 0x2000)
    else none
  else if b = 7 then
    if m = 0 then some (RegionName.lcdc, 0x98000, 0x8000)
    else if m = 1 then some (RegionName.bgb, 0, 0x8000)
    else if m = 2 then some (RegionName.bgbExtPal, 0, 0x8000)
    else none
  else if b = 8 then
    if m = 0 then some (RegionName.lcdc, 0xa0000, 0x4000)
    else if m = 1 then some (RegionName.bgb, 0x8000, 0x4000)
    else if m = 2 then some (RegionName.objb, 0, 0x4000)
    else if m = 3 then some (RegionName.objbExtPal, 0, 0x2000)
    else none
  else none

/-- `Vram::reset_regions`: every region's pages are cleared except — as
in the source — the two object extended-palette regions. -/
def Vram.reset_regions (v : Vram) : Vram :=
  { v with regions := fun rn =>
      if rn = RegionName.objaExtPal ∨ rn = RegionName.objbExtPal then v.regions rn
      else (v.regions rn).reset }

def Vram.mapRegion (v : Vram) (rn : RegionName) (bank off len : Nat) : Option Vram :=
  ((v.regions rn).map bank off len).map fun r1 =>
    { v with regions := fun x => if x = rn then r1 else v.regions x }

/-- One `if self.vramcnt[b].enable() { match ... }` block of
`Vram::write_vramcnt`. -/
def applyBank (b : Nat) (v : Vram) : Option Vram :=
  if cntEnable (v.vramcnt b) then
    match bankTable b (cntMst (v.vramcnt b)) (cntOffset (v.vramcnt b)) with
    | none => none
    | some (rn, off, len) => v.mapRegion rn b off len
  else some v

/-- The VRAMSTAT updates interleaved after the bank C and bank D
blocks. -/
def setStat (bit : Nat) (bank : Nat) (v : Vram) : Vram :=
  if cntEnable (v.vramcnt bank) = true ∧ cntMst (v.vramcnt bank) = 2 then
    { v with vramstat := v.vramstat ||| (1 <<< bit) }
  else
    { v with vramstat := v.vramstat &&& (0xFF ^^^ (1 <<< bit)) }

def stageVram (s : Nat) (v : Vram) : Option Vram :=
  (applyBank s v).map fun w =>
    if s = 2 then setStat 0 2 w else if s = 3 then setStat 1 3 w else w

/-- Stages `s, s+1, ..., s+n-1` of the remap sequence. -/
def runVramStages : Nat → Nat → Vram → Option Vram
  | 0, _, v => some v
  | n + 1, s, v => (stageVram s v).bind fun w => runVramStages n (s + 1) w

/-- `Vram::write_vramcnt`. -/
def Vram.write_vramcnt (v : Vram) (bank val : Nat) : Option Vram :=
  let val1 := val &&& vramcntMasks bank
  if v.vramcnt bank = val1 then some v
  else
    let v1 := { v with vramcnt := fun b => if b = bank then val1 else v.vramcnt b }
    runVramStages 9 0 v1.reset_regions

lemma foldl_lor_eq (f : Nat × Nat → Nat) : ∀ (l : List (Nat × Nat)) (acc : Nat),
    l.foldl (fun d bk => d ||| f bk) acc = acc ||| l.foldr (fun bk a => f bk ||| a) 0 := by
  intro l
  induction l with
  | nil => intro acc; simp
  | cons x l ih =>
      intro acc
      simp only [List.foldl_cons, List.foldr_cons, ih]
      rw [Nat.or_assoc]

lemma writeBanks_cons (w : Vram) (x : Nat × Nat) (l : List (Nat × Nat)) (off val : Nat) :
    writeBanks w (x :: l) off val =
      writeBanks
        { w with banks := fun b i => if b = x.1 ∧ i = x.2 + off then val else w.banks b i }
        l off val := rfl

lemma writeBanks_miss : ∀ (l : List (Nat × Nat)) (w : Vram) (off val b i : Nat),
    (∀ bk ∈ l, ¬(b = bk.1 ∧ i = bk.2 + off)) →
    (writeBanks w l off val).banks b i = w.banks b i := by
  intro l
  induction l with
  | nil => intro w off val b i _; rfl
  | cons x l ih =>
      intro w off val b i hmiss
      rw [writeBanks_cons,
        ih _ off val b i (fun bk hbk => hmiss bk (List.mem_cons_of_mem x hbk))]
      dsimp only
      rw [if_neg (hmiss x (List.mem_cons_self x l))]

lemma writeBanks_hit : ∀ (l : List (Nat × Nat)) (w : Vram) (off val : Nat)
    (bk : Nat × Nat), bk ∈ l →
    (writeBanks w l off val).banks bk.1 (bk.2 + off) = val := by
  intro l
  induction l with
  | nil => intro w off val bk h; cases h
  | cons x l ih =>
      intro w off val bk hm
      rw [writeBanks_cons]
      rcases List.mem_cons.mp hm with he | hmem
      · by_cases hin : bk ∈ l
        · exact ih _ off val bk hin
        · rw [writeBanks_miss l _ off val bk.1 (bk.2 + off) ?_]
          · dsimp only
            rw [he, if_pos ⟨rfl, rfl⟩]
          · intro bk2 hbk2 hcontra
            apply hin
            have hx : bk2 = bk := by
              have h2 : bk.2 = bk2.2 := by omega
              exact Prod.ext hcontra.1.symm h2.symm
            rw [← hx]
            exact hbk2
      · exact ih _ off val bk hmem

lemma mapLoop_preserves (bank off : Nat) : ∀ (n i : Nat) (r r1 : VramRegion),
    VramRegion.mapLoop bank off n i r = some r1 →
    ∀ idx pg bk, r.pages.get? idx = some pg → bk ∈ pg.banks →
      ∃ pg2, r1.pages.get? idx = some pg2 ∧ bk ∈ pg2.banks := by
  intro n
  induction n with
  | zero =>
      intro i r r1 h idx pg bk h1 h2
      cases h
      exact ⟨pg, h1, h2⟩
  | succ n ih =>
      intro i r r1 h idx pg bk h1 h2
      rw [VramRegion.mapLoop] at h
      split at h
      · exact absurd h (by simp)
      · rename_i pg0 hg
        by_cases hidx : idx = off / 0x1000 + i
        · have hlt : idx < r.pages.length := by
            obtain ⟨hl, _⟩ := List.get?_eq_some.mp h1
            exact hl
          have hset : (r.pages.set (off / 0x1000 + i)
              (pg0.add_bank (bank, i * 0x1000))).get? idx =
              some (pg0.add_bank (bank, i * 0x1000)) := by
            rw [hidx] at hlt ⊢
            exact List.get?_set_eq_of_lt _ hlt
          have hpg : pg = pg0 := by
            rw [hidx] at h1
            rw [h1] at hg
            exact (Option.some.injEq _ _).mp hg.symm |>.symm
          exact ih (i + 1) _ r1 h idx _ bk hset
            (by simp only [VramPage.add_bank]
                subst hpg
                exact List.mem_append_left _ h2)
        · have hset : (r.pages.set (off / 0x1000 + i)
              (pg0.add_bank (bank, i * 0x1000))).get? idx = some pg := by
            rw [List.get?_set_ne _ _ (fun he => hidx he.symm)]
            exact h1
          exact ih (i + 1) _ r1 h idx pg bk hset h2

lemma mapLoop_mem (bank off : Nat) : ∀ (n i : Nat) (r r1 : VramRegion),
    VramRegion.mapLoop bank off n i r = some r1 →
    ∀ j, j < n →
      ∃ pg, r1.pages.get? (off / 0x1000 + (i + j)) = some pg ∧
        (bank, (i + j) * 0x1000) ∈ pg.banks := by
  intro n
  induction n with
  | zero => intro i r r1 _ j hj; omega
  | succ n ih =>
      intro i r r1 h j hj
      rw [VramRegion.mapLoop] at h
      split at h
      · exact absurd h (by simp)
      · rename_i pg0 hg
        rcases Nat.eq_zero_or_pos j with hj0 | hjpos
        · subst hj0
          have hlt : off / 0x1000 + i < r.pages.length := by
            obtain ⟨hl, _⟩ := List.get?_eq_some.mp hg
            exact hl
          have hset : (r.pages.set (off / 0x1000 + i)
              (pg0.add_bank (bank, i * 0x1000))).get? (off / 0x1000 + i) =
              some (pg0.add_bank (bank, i * 0x1000)) :=
            List.get?_set_eq_of_lt _ hlt
          obtain ⟨pg2, hp2, hm2⟩ := mapLoop_preserves bank off n (i + 1) _ r1 h
            (off / 0x1000 + i) _ (bank, i * 0x1000) hset
            (by simp only [VramPage.add_bank]
                exact List.mem_append_right _ (List.mem_singleton.mpr rfl))
          exact ⟨pg2, by simpa using hp2, by simpa using hm2⟩
        · obtain ⟨j', rfl⟩ : ∃ j', j = j' + 1 := ⟨j - 1, by omega⟩
          obtain ⟨pg, hp, hm⟩ := ih (i + 1) _ r1 h j' (by omega)
          refine ⟨pg, ?_, ?_⟩
          · have : i + 1 + j' = i + (j' + 1) := by omega
            rw [← this]
            exact hp
          · have : i + 1 + j' = i + (j' + 1) := by omega
            rw [← this]
            exact hm

lemma mapRegion_preserves (v v1 : Vram) (rn : RegionName) (bank off len : Nat)
    (h : v.mapRegion rn bank off len = some v1) :
    ∀ rn2 idx pg bk, (v.regions rn2).pages.get? idx = some pg → bk ∈ pg.banks →
      ∃ pg2, (v1.regions rn2).pages.get? idx = some pg2 ∧ bk ∈ pg2.banks := by
  unfold Vram.mapRegion at h
  rcases hmap : (v.regions rn).map bank off len with _ | r1
  · rw [hmap] at h
    exact absurd h (by simp)
  · rw [hmap] at h
    simp only [Option.map_some', Option.some.injEq] at h
    intro rn2 idx pg bk h1 h2
    by_cases hr : rn2 = rn
    · subst hr
      obtain ⟨pg2, hp2, hm2⟩ :=
        mapLoop_preserves bank off (len / 0x1000) 0 _ r1 hmap idx pg bk h1 h2
      refine ⟨pg2, ?_, hm2⟩
      rw [← h]
      simpa using hp2
    · refine ⟨pg, ?_, h2⟩
      rw [← h]
      simpa [hr] using h1

lemma mapRegion_mem (v v1 : Vram) (rn : RegionName) (bank off len : Nat)
    (h : v.mapRegion rn bank off len = some v1) :
    ∀ i, i < len / 0x1000 →
      ∃ pg, (v1.regions rn).pages.get? (off / 0x1000 + i) = some pg ∧
        (bank, i * 0x1000) ∈ pg.banks := by
  unfold Vram.mapRegion at h
  rcases hmap : (v.regions rn).map bank off len with _ | r1
  · rw [hmap] at h
    exact absurd h (by simp)
  · rw [hmap] at h
    simp only [Option.map_some', Option.some.injEq] at h
    intro i hi
    obtain ⟨pg, hp, hm⟩ := mapLoop_mem bank off (len / 0x1000) 0 _ r1 hmap i hi
    refine ⟨pg, ?_, by simpa using hm⟩
    rw [← h]
    simpa using hp

lemma setStat_regions (bit bank : Nat) (v : Vram) : (setStat bit bank v).regions = v.regions := by
  unfold setStat
  split <;> rfl

lemma setStat_vramcnt (bit bank : Nat) (v : Vram) : (setStat bit bank v).vramcnt = v.vramcnt := by
  unfold setStat
  split <;> rfl

lemma mapRegion_vramcnt (v v1 : Vram) (rn : RegionName) (bank off len : Nat)
    (h : v.mapRegion rn bank off len = some v1) : v1.vramcnt = v.vramcnt := by
  unfold Vram.mapRegion at h
  rcases hmap : (v.regions rn).map bank off len with _ | r1 <;> rw [hmap] at h
  · exact absurd h (by simp)
  · simp only [Option.map_some', Option.some.injEq] at h
    rw [← h]

lemma applyBank_preserves (b : Nat) (v v1 : Vram) (h : applyBank b v = some v1) :
    ∀ rn2 idx pg bk, (v.regions rn2).pages.get? idx = some pg → bk ∈ pg.banks →
      ∃ pg2, (v1.regions rn2).pages.get? idx = some pg2 ∧ bk ∈ pg2.banks := by
  unfold applyBank at h
  split_ifs at h with he
  · split at h
    · exact absurd h (by simp)
    · rename_i rn off len heq
      exact mapRegion_preserves v v1 _ b _ _ h
  · cases h
    intro rn2 idx pg bk h1 h2
    exact ⟨pg, h1, h2⟩

lemma applyBank_vramcnt (b : Nat) (v v1 : Vram) (h : applyBank b v = some v1) :
    v1.vramcnt = v.vramcnt := by
  unfold applyBank at h
  split_ifs at h with he
  · split at h
    · exact absurd h (by simp)
    · exact mapRegion_vramcnt v v1 _ b _ _ h
  · cases h
    rfl

lemma stageVram_preserves (s : Nat) (v v1 : Vram) (h : stageVram s v = some v1) :
    ∀ rn2 idx pg bk, (v.regions rn2).pages.get? idx = some pg → bk ∈ pg.banks →
      ∃ pg2, (v1.regions rn2).pages.get? idx = some pg2 ∧ bk ∈ pg2.banks := by
  unfold stageVram at h
  rcases hab : applyBank s v with _ | w <;> rw [hab] at h
  · exact absurd h (by simp)
  · simp only [Option.map_some', Option.some.injEq] at h
    intro rn2 idx pg bk h1 h2
    obtain ⟨pg2, hp2, hm2⟩ := applyBank_preserves s v w hab rn2 idx pg bk h1 h2
    refine ⟨pg2, ?_, hm2⟩
    rw [← h]
    split_ifs <;> (try simp only [setStat_regions]) <;> exact hp2

lemma stageVram_vramcnt (s : Nat) (v v1 : Vram) (h : stageVram s v = some v1) :
    v1.vramcnt = v.vramcnt := by
  unfold stageVram at h
  rcases hab : applyBank s v with _ | w <;> rw [hab] at h
  · exact absurd h (by simp)
  · simp only [Option.map_some', Option.some.injEq] at h
    rw [← h]
    have := applyBank_vramcnt s v w hab
    split_ifs <;> simp [setStat_vramcnt, this]

lemma runStages_preserves : ∀ (n s : Nat) (v v1 : Vram),
    runVramStages n s v = some v1 →
    ∀ rn2 idx pg bk, (v.regions rn2).pages.get? idx = some pg → bk ∈ pg.banks →
      ∃ pg2, (v1.regions rn2).pages.get? idx = some pg2 ∧ bk ∈ pg2.banks := by
  intro n
  induction n with
  | zero =>
      intro s v v1 h rn2 idx pg bk h1 h2
      cases h
      exact ⟨pg, h1, h2⟩
  | succ n ih =>
      intro s v v1 h rn2 idx pg bk h1 h2
      rw [runVramStages] at h
      rcases hst : stageVram s v with _ | w <;> rw [hst] at h
      · exact absurd h (by simp)
      · simp only [Option.some_bind] at h
        obtain ⟨pg2, hp2, hm2⟩ := stageVram_preserves s v w hst rn2 idx pg bk h1 h2
        exact ih (s + 1) w v1 h rn2 idx pg2 bk hp2 hm2

lemma runStages_vramcnt : ∀ (n s : Nat) (v v1 : Vram),
    runVramStages n s v = some v1 → v1.vramcnt = v.vramcnt := by
  intro n
  induction n with
  | zero => intro s v v1 h; cases h; rfl
  | succ n ih =>
      intro s v v1 h
      rw [runVramStages] at h
      rcases hst : stageVram s v with _ | w <;> rw [hst] at h
      · exact absurd h (by simp)
      · simp only [Option.some_bind] at h
        rw [ih (s + 1) w v1 h, stageVram_vramcnt s v w hst]

lemma runStages_mem : ∀ (n s : Nat) (v v1 : Vram),
    runVramStages n s v = some v1 →
    ∀ b, s ≤ b → b < s + n →
    ∀ R O L, cntEnable (v.vramcnt b) = true →
      bankTable b (cntMst (v.vramcnt b)) (cntOffset (v.vramcnt b)) = some (R, O, L) →
      ∀ i, i < L / 0x1000 →
        ∃ pg, (v1.regions R).pages.get? (O / 0x1000 + i) = some pg ∧
          (b, i * 0x1000) ∈ pg.banks := by
  intro n
  induction n with
  | zero => intro s v v1 _ b hsb hbn; omega
  | succ n ih =>
      intro s v v1 h b hsb hbn R O L hen htab i hi
      rw [runVramStages] at h
      rcases hst : stageVram s v with _ | w <;> rw [hst] at h
      · exact absurd h (by simp)
      · simp only [Option.some_bind] at h
        by_cases hbs : b = s
        · subst hbs
          unfold stageVram at hst
          rcases hab : applyBank b v with _ | w0 <;> rw [hab] at hst
          · exact absurd hst (by simp)
          · simp only [Option.map_some', Option.some.injEq] at hst
            unfold applyBank at hab
            rw [if_pos hen, htab] at hab
            obtain ⟨pg, hp, hm⟩ := mapRegion_mem v w0 R b O L hab i hi
            have hw : ∀ rn, w.regions rn = w0.regions rn := by
              intro rn
              rw [← hst]
              split_ifs <;> simp [setStat_regions]
            obtain ⟨pg2, hp2, hm2⟩ := runStages_preserves n (b + 1) w v1 h R _ pg
              (b, i * 0x1000) (by rw [hw]; exact hp) hm
            exact ⟨pg2, hp2, hm2⟩
        · have hcnt := stageVram_vramcnt s v w hst
          exact ih (s + 1) w v1 h b (by omega) (by omega) R O L
            (by rw [hcnt]; exact hen) (by rw [hcnt]; exact htab) i hi

/-- C9: a VRAMCNT write that changes a bank's (masked) register remaps
the regions; afterwards (1) whenever the hardware table assigns the
written bank to region R at offset O for length L, every page of that
range holds a pointer into the bank at the matching offset, (2) a read
of any region address is the OR of all banks mapped at that page (0 for
a page no bank maps), and (3) a write to a region address stores the
value through every bank mapped at that page and changes nothing else. -/
theorem c9_vram_bank_routing (v v1 : Vram) (b val : Nat) (hb : b < 9)
    (hch : v.vramcnt b ≠ val &&& vramcntMasks b)
    (hw : v.write_vramcnt b val = some v1) :
    (v1.vramcnt b = val &&& vramcntMasks b) ∧
      (∀ R O L, cntEnable (v1.vramcnt b) = true →
        bankTable b (cntMst (v1.vramcnt b)) (cntOffset (v1.vramcnt b)) = some (R, O, L) →
        ∀ i, i < L / 0x1000 →
          ∃ pg, (v1.regions R).pages.get? (O / 0x1000 + i) = some pg ∧
            (b, i * 0x1000) ∈ pg.banks) ∧
      (∀ R addr pg u, (v1.regions R).get_page addr = some pg →
        vramRead v1 R addr = some u →
        u = pg.banks.foldr (fun bk a => v1.banks bk.1 (bk.2 + (addr &&& 0xFFF)) ||| a) 0 ∧
          (pg.banks = [] → u = 0)) ∧
      (∀ R addr val2 pg w, (v1.regions R).get_page addr = some pg →
        vramWrite v1 R addr val2 = some w →
        (∀ bk ∈ pg.banks, w.banks bk.1 (bk.2 + (addr &&& 0xFFF)) = val2) ∧
          (∀ b2 i2, (∀ bk ∈ pg.banks, ¬(b2 = bk.1 ∧ i2 = bk.2 + (addr &&& 0xFFF))) →
            w.banks b2 i2 = v1.banks b2 i2)) := by
  unfold Vram.write_vramcnt at hw
  rw [if_neg hch] at hw
  have hcnt := runStages_vramcnt 9 0 _ v1 hw
  have hcntb : v1.vramcnt b = val &&& vramcntMasks b := by
    rw [hcnt]
    simp [Vram.reset_regions]
  refine ⟨hcntb, ?_, ?_, ?_⟩
  · intro R O L hen htab i hi
    have hsame : ({ v with vramcnt := fun b2 =>
        if b2 = b then val &&& vramcntMasks b else v.vramcnt b2 } :
        Vram).reset_regions.vramcnt b = v1.vramcnt b := by
      rw [hcnt]
    exact runStages_mem 9 0 _ v1 hw b (by omega) (by omega) R O L
      (by rw [hsame]; exact hen) (by rw [hsame]; exact htab) i hi
  · intro R addr pg u h1 h2
    unfold vramRead at h2
    rw [h1] at h2
    simp only [Option.map_some', Option.some.injEq] at h2
    subst h2
    rw [foldl_lor_eq]
    constructor
    · rw [Nat.zero_or]
    · intro hnil
      rw [hnil]
      simp
  · intro R addr val2 pg w h1 h2
    unfold vramWrite at h2
    rw [h1] at h2
    simp only [Option.map_some', Option.some.injEq] at h2
    subst h2
    constructor
    · intro bk hbk
      exact writeBanks_hit pg.banks v1 (addr &&& 0xFFF) val2 bk hbk
    · intro b2 i2 hmiss
      exact writeBanks_miss pg.banks v1 (addr &&& 0xFFF) val2 b2 i2 hmiss

/-- Region sizes from `Vram::reset`'s `allocate` calls. -/
def regionSize : RegionName → Nat
  | RegionName.lcdc => 0xa4000
  | RegionName.bga => 0x80000
  | RegionName.obja => 0x40000
  | RegionName.bgb => 0x20000
  | RegionName.objb => 0x20000
  | RegionName.arm7Vram => 0x40000
  | RegionName.textureData => 0x80000
  | RegionName.texturePalette => 0x20000
  | RegionName.bgaExtPal => 0x8000
  | RegionName.bgbExtPal => 0x8000
  | RegionName.objaExtPal => 0x2000
  | RegionName.objbExtPal => 0x2000

/-- The VRAM state of the C9 witness: freshly allocated regions, bank A
holding 0xAB at byte offset 5. -/
def vram0 : Vram :=
  { vramcnt := fun _ => 0,
    banks := fun b i => if b = 0 ∧ i = 5 then 0xAB else 0,
    regions := fun rn => ⟨List.replicate (regionSize rn / 0x1000) ⟨[]⟩⟩,
    vramstat := 0 }

/-- Witness for C9: VRAMCNT_A = 0x81 (enable, MST 1) maps bank A into
the BGA region at offset 0; page 0 then holds a pointer into bank A,
and reading BGA at offset 5 returns bank A's byte 0xAB. -/
theorem c9_vram_bank_routing_witness :
    ((vram0.write_vramcnt 0 0x81).bind fun v1 => vramRead v1 RegionName.bga 5) =
        some 0xAB ∧
      ∃ v1, vram0.write_vramcnt 0 0x81 = some v1 ∧
        ∃ pg, (v1.regions RegionName.bga).pages.get? 0 = some pg ∧ (0, 0) ∈ pg.banks := by
  constructor
  · rfl
  · obtain ⟨v1, hv⟩ : ∃ v1, vram0.write_vramcnt 0 0x81 = some v1 := ⟨_, rfl⟩
    obtain ⟨hcnt, hmem, _, _⟩ :=
      c9_vram_bank_routing vram0 v1 0 0x81 (by decide) (by decide) hv
    refine ⟨v1, hv, ?_⟩
    have h := hmem RegionName.bga 0 0x20000 (by rw [hcnt]; decide)
      (by rw [hcnt]; decide) 0 (by decide)
    simpa using h

end Emu
